import Mathlib

/-!
Verification development for the leadblitz credit-metering and website-scoring
pipeline.  Every definition below is a shallow embedding of the corresponding
Python function of the repository (file and symbol named in its doc comment):
database rows become records, the per-user portion of the database becomes an
explicit state value threaded through the operations, Python ints become `Int`
(or `Nat` where the quantity is a count), datetimes become integer UTC
timestamps in seconds, and floats that only ever hold exact small values
(credit cursors, confidences with one or two decimals) become `Nat`/`ℚ`.
-/

namespace Credits

/-- Price table `CREDIT_COSTS` from `app/services/credits.py`. -/
def CREDIT_COSTS : List (String × Int) :=
  [("ai_scoring", 1), ("email_send", 0), ("sms_send", 2), ("lead_search", 0),
   ("email_personalization", 1)]

/-- `CREDIT_COSTS.get(action, 0)`. -/
def costOf (action : String) : Int := (CREDIT_COSTS.lookup action).getD 0

/-- Row of the `user_credits` table (`app/models.py`, class `UserCredits`) for one
user.  The integer columns default to 0 and are never NULL in practice, so the
`int(... or 0)` coercions of the source are identities here. -/
structure UserCredits where
  balance : Int
  total_purchased : Int
  total_used : Int
deriving DecidableEq

/-- Row of the `credit_transactions` table (`app/models.py`, class
`CreditTransaction`), restricted to the columns the credit services write. -/
structure CreditTransaction where
  amount : Int
  transaction_type : String
  description : String
  balance_after : Int
  stripe_payment_intent_id : Option String
  stripe_checkout_session_id : Option String
deriving DecidableEq

/-- The slice of the database owned by one user that the credit operations
read and write: the (optional, lazily created) `UserCredits` row and that
user's `CreditTransaction` rows in insertion order. -/
structure LedgerState where
  credits : Option UserCredits
  transactions : List CreditTransaction
deriving DecidableEq

/-- The row `UserCredits(user_id=..., balance=0)` inserted by `get_or_create`
and by the lazy-creation branches of `deduct_credits` / `add_credits`
(column defaults fill `total_purchased = total_used = 0`). -/
def freshRow : UserCredits := { balance := 0, total_purchased := 0, total_used := 0 }

/-- `CreditManager.get_or_create` (`app/services/credits.py`): returns the
existing row, or the freshly inserted zero row. -/
def getOrCreateRow (s : LedgerState) : UserCredits := s.credits.getD freshRow

/-- `CreditManager.get_balance`: the user's balance, 0 for a missing row. -/
def stateBalance (s : LedgerState) : Int := (getOrCreateRow s).balance

/-- `CreditManager.deduct_credits` (`app/services/credits.py`).  Returns the
`(ok, balance_after)` pair together with the successor state.  The
`with_for_update()` row lock of the source serializes this check-and-decrement
against concurrent callers; the embedding therefore treats the whole body as
one atomic step.  Zero-cost actions return early through `get_balance`, whose
`get_or_create` still inserts a zero row when none exists. -/
def deduct_credits (s : LedgerState) (action : String) (count : Int)
    (description : Option String) : (Bool × Int) × LedgerState :=
  let cost := costOf action * count
  if cost = 0 then
    ((true, stateBalance s), { s with credits := some (getOrCreateRow s) })
  else
    let row := getOrCreateRow s
    let balance := row.balance
    if balance < cost then
      ((false, balance), { s with credits := some row })
    else
      let row2 : UserCredits :=
        { row with balance := balance - cost, total_used := row.total_used + cost }
      let t : CreditTransaction :=
        { amount := -cost, transaction_type := "usage",
          description := description.getD (action ++ " x" ++ toString count),
          balance_after := row2.balance,
          stripe_payment_intent_id := none, stripe_checkout_session_id := none }
      ((true, row2.balance), { credits := some row2, transactions := s.transactions ++ [t] })

/-- `CreditManager.add_credits` (`app/services/credits.py`): increments the
balance and `total_purchased`, appends a positive `purchase` transaction, and
returns the new balance. -/
def add_credits (s : LedgerState) (amount : Int) (description : String)
    (stripe_payment_intent_id : Option String := none)
    (stripe_checkout_session_id : Option String := none) : Int × LedgerState :=
  let row := getOrCreateRow s
  let row2 : UserCredits :=
    { row with balance := row.balance + amount,
               total_purchased := row.total_purchased + amount }
  let t : CreditTransaction :=
    { amount := amount, transaction_type := "purchase", description := description,
      balance_after := row2.balance,
      stripe_payment_intent_id := stripe_payment_intent_id,
      stripe_checkout_session_id := stripe_checkout_session_id }
  (row2.balance, { credits := some row2, transactions := s.transactions ++ [t] })

/-- A debit or credit request against one user's ledger, as issued by callers
of `CreditManager`. -/
inductive CreditOp where
  | deduct (action : String) (count : Int) (description : Option String)
  | add (amount : Int) (description : String)

/-- State transition of one ledger operation. -/
def applyOp (s : LedgerState) : CreditOp → LedgerState
  | .deduct a c d => (deduct_credits s a c d).2
  | .add amt d => (add_credits s amt d).2

/-- The net balance movement an operation performs at state `s`: the credited
amount, minus the debited cost for a successful debit, 0 for a failed or
zero-cost one. -/
def opDelta (s : LedgerState) : CreditOp → Int
  | .deduct a c _ =>
    let cost := costOf a * c
    if cost = 0 then 0 else if stateBalance s < cost then 0 else -cost
  | .add amt _ => amt

/-- Run a sequence of ledger operations left to right. -/
def runOps (s : LedgerState) : List CreditOp → LedgerState
  | [] => s
  | op :: ops => runOps (applyOp s op) ops

/-- Σ(credit amounts) − Σ(successful debit costs) along a run. -/
def netDelta (s : LedgerState) : List CreditOp → Int
  | [] => 0
  | op :: ops => opDelta s op + netDelta (applyOp s op) ops

/-- Sum of the amounts of the user's recorded `CreditTransaction` rows. -/
def txSum (s : LedgerState) : Int := (s.transactions.map (·.amount)).sum

/-- `balance == total_purchased − total_used` on one row. -/
def rowReconciled (r : UserCredits) : Prop :=
  r.balance = r.total_purchased - r.total_used

/-- The reconciliation invariant on a ledger state (vacuous before the lazy
row creation). -/
def ledgerReconciled (s : LedgerState) : Prop :=
  ∀ r, s.credits = some r → rowReconciled r

instance (r : UserCredits) : Decidable (rowReconciled r) := by
  unfold rowReconciled; infer_instance

/-- `N` identical debit attempts (`deduct_credits` with the same action and
count) executed one after the other — the serialization the
`with_for_update()` row lock enforces on `N` concurrent workers.  Returns the
final state and the number of attempts that succeeded. -/
def runAttempts (action : String) (count : Int) : Nat → LedgerState → LedgerState × Nat
  | 0, s => (s, 0)
  | n + 1, s =>
    let r := deduct_credits s action count none
    let rest := runAttempts action count n r.2
    (rest.1, (if r.1.1 then 1 else 0) + rest.2)

end Credits

namespace Drip

/-- `PLAN_CONFIG` entries from `app/services/credit_drip.py`. -/
structure PlanConfig where
  monthly_credits : Nat
  price_cents : Nat
deriving DecidableEq

/-- `PLAN_CONFIG` from `app/services/credit_drip.py`. -/
def PLAN_CONFIG : List (String × PlanConfig) :=
  [("starter_monthly", { monthly_credits := 250, price_cents := 999 }),
   ("professional_monthly", { monthly_credits := 1000, price_cents := 3999 }),
   ("enterprise_monthly", { monthly_credits := 5000, price_cents := 12999 })]

/-- `get_plan_config` from `app/services/credit_drip.py`. -/
def get_plan_config (package_id : String) : Option PlanConfig :=
  PLAN_CONFIG.lookup package_id

/-- `calculate_weekly_credits` from `app/services/credit_drip.py`: four batches
of `monthly_credits // 4`, the remainder (0–3) distributed one credit each to
the earliest weeks — unrolled here because the remainder is less than 4. -/
def calculate_weekly_credits (monthly_credits : Nat) : List Nat :=
  let base_amount := monthly_credits / 4
  let remainder := monthly_credits % 4
  [base_amount + (if 0 < remainder then 1 else 0),
   base_amount + (if 1 < remainder then 1 else 0),
   base_amount + (if 2 < remainder then 1 else 0),
   base_amount + (if 3 < remainder then 1 else 0)]

/-- `get_current_week` from `app/services/credit_drip.py`.  Times are UTC
seconds; `(current_time - period_start).days` floors (Python `timedelta`
normalization), hence `Int.fdiv` by 86400. -/
def get_current_week (period_start current_time : Int) : Nat :=
  let days_elapsed := (current_time - period_start).fdiv 86400
  if days_elapsed ≥ 21 then 3
  else if days_elapsed ≥ 14 then 2
  else if days_elapsed ≥ 7 then 1
  else 0

/-- `calculate_credits_due` from `app/services/credit_drip.py`: credits owed
through week `current_week + 1` that the cursor has not issued yet, together
with the new cursor value.  The Python slice
`weekly_batches[weeks_issued:weeks_to_issue_through]` is `drop`/`take`. -/
def calculate_credits_due (monthly_credits : Nat) (period_start current_time : Int)
    (weeks_issued : Nat) : Nat × Nat :=
  if weeks_issued ≥ 4 then (0, 4)
  else
    let current_week := get_current_week period_start current_time
    let weeks_to_issue_through := current_week + 1
    if weeks_to_issue_through ≤ weeks_issued then (0, weeks_issued)
    else
      let weekly_batches := calculate_weekly_credits monthly_credits
      (((weekly_batches.drop weeks_issued).take (weeks_to_issue_through - weeks_issued)).sum,
       weeks_to_issue_through)

/-- The fields of `UserSubscription` (`app/models.py`) that the drip reads.
`current_period_start/end` are nullable; the source's truthiness test
`if not subscription.current_period_start` is the `none` test here. -/
structure Subscription where
  status : String
  package_id : String
  current_period_start : Option Int
  current_period_end : Option Int
deriving DecidableEq

/-- Row of `credit_states` (`app/models.py`, class `CreditState`).  The
`issuance_cursor` column is a float that only ever stores the exact whole
week counts 0.0–4.0 (`float(new_weeks_issued)`), read back through
`int(... or 0)`; it is therefore embedded as the `Nat` it represents. -/
structure CreditState where
  last_issued_at : Option Int
  issuance_cursor : Nat
deriving DecidableEq

/-- The state `issue_credits_for_user` mutates: the caller-supplied
`CreditState` and `UserCredits` rows plus the user's transaction rows. -/
structure DripState where
  credit_state : CreditState
  user_credits : Credits.UserCredits
  transactions : List Credits.CreditTransaction
deriving DecidableEq

/-- `issue_credits_for_user` from `app/services/credit_drip.py`.  Returns the
number of credits issued and the successor state.  All the early `return 0`
paths leave the state untouched (they precede every mutation and the commit). -/
def issue_credits_for_user (sub : Subscription) (st : DripState) (current_time : Int) :
    Nat × DripState :=
  if ¬ (sub.status = "active" ∨ sub.status = "canceling") then (0, st)
  else
    match sub.current_period_start, sub.current_period_end with
    | some period_start, some period_end =>
      if current_time > period_end then (0, st)
      else
        match get_plan_config sub.package_id with
        | none => (0, st)
        | some plan_config =>
          let monthly_credits := plan_config.monthly_credits
          let weeks_issued := st.credit_state.issuance_cursor
          let due := calculate_credits_due monthly_credits period_start current_time weeks_issued
          let credits_to_issue := due.1
          let new_weeks_issued := due.2
          let st1 :=
            if 0 < credits_to_issue then
              let new_balance := st.user_credits.balance + (credits_to_issue : Int)
              let week_label :=
                if new_weeks_issued ≤ 3 then "week " ++ toString new_weeks_issued
                else "final batch"
              let t : Credits.CreditTransaction :=
                { amount := (credits_to_issue : Int),
                  transaction_type := "subscription_accrual",
                  description := "Weekly credit batch: " ++ toString credits_to_issue
                    ++ " credits (" ++ week_label ++ ")",
                  balance_after := new_balance,
                  stripe_payment_intent_id := none, stripe_checkout_session_id := none }
              { st with
                  user_credits := { st.user_credits with balance := new_balance },
                  transactions := st.transactions ++ [t] }
            else st
          (credits_to_issue,
           { st1 with
               credit_state :=
                 { last_issued_at := some current_time, issuance_cursor := new_weeks_issued } })
    | _, _ => (0, st)

/-- The per-user database slice `issue_initial_credits` touches: the (lazily
created) `UserCredits` and `CreditState` rows and the transaction rows. -/
structure InitState where
  user_credits : Option Credits.UserCredits
  credit_state : Option CreditState
  transactions : List Credits.CreditTransaction
deriving DecidableEq

/-- `issue_initial_credits` from `app/services/credit_drip.py`: issues the
first weekly batch (25 %) on subscription creation and sets the cursor to 1. -/
def issue_initial_credits (st : InitState) (package_id : String) (now : Int) :
    Nat × InitState :=
  match get_plan_config package_id with
  | none => (0, st)
  | some plan_config =>
    let monthly_credits := plan_config.monthly_credits
    let weekly_batches := calculate_weekly_credits monthly_credits
    let initial_credits := weekly_batches.headD 0
    let user_credits := st.user_credits.getD Credits.freshRow
    let user_credits2 :=
      { user_credits with balance := user_credits.balance + (initial_credits : Int) }
    let t : Credits.CreditTransaction :=
      { amount := (initial_credits : Int), transaction_type := "subscription_accrual",
        description := "Initial subscription credits: " ++ toString initial_credits
          ++ " credits (25%)",
        balance_after := user_credits2.balance,
        stripe_payment_intent_id := none, stripe_checkout_session_id := none }
    let credit_state2 : CreditState :=
      { last_issued_at := some now, issuance_cursor := 1 }
    (initial_credits,
     { user_credits := some user_credits2,
       credit_state := some credit_state2,
       transactions := st.transactions ++ [t] })

end Drip

namespace AiScorer

/-- The `plain_english_report` JSON object the model returns and the pipeline
passes through (`app/services/ai_scorer.py`). -/
structure PlainReport where
  strengths : List String
  weaknesses : List String
  technology_observations : String
  sales_opportunities : List String
deriving DecidableEq

/-- Empty report, the `.get(..., {})` default. -/
def PlainReport.empty : PlainReport :=
  { strengths := [], weaknesses := [], technology_observations := "",
    sales_opportunities := [] }

/-- The JSON object parsed from the model's chat completion in `score_with_ai`
(`app/services/ai_scorer.py`): dictionaries become association lists, the
`.get(key, default)` reads become `lookup ... |>.getD default`. -/
structure AiResponse where
  category_scores : List (String × Int)
  justifications : List (String × String)
  plain_english_report : PlainReport
  insufficient_evidence : Bool
  confidence : ℚ
deriving DecidableEq

/-- The dictionary `score_with_ai` returns. -/
structure AiReview where
  category_scores : List (String × Int)
  justifications : List (String × String)
  plain_english_report : PlainReport
  insufficient_evidence : Bool
  confidence : ℚ
deriving DecidableEq

/-- `{}` default used when a cache entry has no stored `ai_result`. -/
def AiReview.empty : AiReview :=
  { category_scores := [], justifications := [], plain_english_report := PlainReport.empty,
    insufficient_evidence := false, confidence := 0 }

/-- The `clamped` dictionary of `score_with_ai`: each category read with
default 0 and clamped into its cap. -/
def clampCategoryScores (cs : List (String × Int)) : List (String × Int) :=
  [("brand", max 0 (min 12 ((cs.lookup "brand").getD 0))),
   ("visual", max 0 (min 10 ((cs.lookup "visual").getD 0))),
   ("conversion", max 0 (min 12 ((cs.lookup "conversion").getD 0))),
   ("trust", max 0 (min 10 ((cs.lookup "trust").getD 0))),
   ("a11y", max 0 (min 6 ((cs.lookup "a11y").getD 0)))]

/-- The post-processing `score_with_ai` (`app/services/ai_scorer.py`) applies to
a successfully parsed model response; `text_word_count` is
`heuristic_evidence.get("text_word_count", 0)`.  The uplift writes
`int(v + adj)` with `adj = (20 - total_ai) / 5` a Python float; because
`v` is an integer and `(20 - total_ai)/5` has fractional part in
`{0, .2, .4, .6, .8}`, truncation never crosses an integer boundary and the
result is exactly `v + (20 - total_ai) // 5`, the integer division used here
(the numerator is positive in this branch, so every division convention
agrees). -/
def score_with_ai (resp : AiResponse) (text_word_count : Int) : AiReview :=
  let clamped := clampCategoryScores resp.category_scores
  let insufficient := resp.insufficient_evidence
  let confidence := resp.confidence
  let total_ai := (clamped.map (·.2)).sum
  let clamped2 :=
    if insufficient ∧ total_ai < 20 ∧ text_word_count > 150 then
      let adj := (20 - total_ai) / 5
      clamped.map (fun p => (p.1, p.2 + adj))
    else clamped
  { category_scores := clamped2,
    justifications := resp.justifications,
    plain_english_report := resp.plain_english_report,
    insufficient_evidence := insufficient,
    confidence := max 0 (min 1 confidence) }

end AiScorer

namespace Scorer

/-- The heuristic-result JSON blob as stored in the cache and read back by
`get_cached_score` / `combine_scores`: exactly the keys those readers use
(`total_heuristic`, `scores`, `evidence`, `rendering_limitations`); the
evidence dictionary is kept as an association list (its only key ever read is
`text_word_count`). -/
structure HeurBlob where
  total_heuristic : Int
  scores : List (String × Int)
  evidence : List (String × Int)
  rendering_limitations : Bool
deriving DecidableEq

/-- `{}` default used when a cache entry has no stored `heuristic_result`:
every subsequent `.get` then yields its default. -/
def HeurBlob.empty : HeurBlob :=
  { total_heuristic := 0, scores := [], evidence := [], rendering_limitations := false }

/-- `normalize_url` and the cache work with SHA-256 hex digests
(`hashlib.sha256(url.encode()).hexdigest()` in `app/services/scorer.py`).
Every claim about the digest depends only on it being one fixed deterministic
function applied at both the write and the read site, so the compression
function itself is embedded as a tagged injective serialization rather than
bit-level SHA-256. -/
def url_to_hash (url : String) : String := "sha256:" ++ url

/-- `'/'`, `'?'`, `'#'` — the characters `urllib.parse` stops the netloc at. -/
def isNetlocDelim (c : Char) : Bool := c == '/' || c == '?' || c == '#'

/-- Python `_splitparams` as invoked by `urlparse`: drop the `;params` suffix
of the *last* path segment (the first `';'` at or after the last `'/'`, or the
first `';'` anywhere when the path has no `'/'`). -/
def splitParamsL (p : List Char) : List Char :=
  if p.contains '/' then
    let lastSeg := (p.reverse.takeWhile (fun c => !(c == '/'))).reverse
    let pre := (p.reverse.dropWhile (fun c => !(c == '/'))).reverse
    if lastSeg.contains ';' then pre ++ lastSeg.takeWhile (fun c => !(c == ';'))
    else p
  else
    if p.contains ';' then p.takeWhile (fun c => !(c == ';')) else p

/-- Python `str.rstrip("/")`. -/
def rstripSlashL (p : List Char) : List Char :=
  (p.reverse.dropWhile (fun c => c == '/')).reverse

/-- `"http://"` as a character list. -/
def schemeHttp : List Char := "http://".data

/-- `"https://"` as a character list. -/
def schemeHttps : List Char := "https://".data

/-- The `url` value after `normalize_url`'s scheme-defaulting step:
`if not url.startswith(("http://", "https://")): url = "https://" + url`. -/
def ensured (u : List Char) : List Char :=
  if schemeHttp.isPrefixOf u || schemeHttps.isPrefixOf u then u else schemeHttps ++ u

/-- `urlparse(url).scheme` for the scheme-defaulted input (which always starts
with one of the two literal schemes, so the generic scheme parser of
`urllib.parse` reduces to this test). -/
def schemeOf (u : List Char) : List Char :=
  if schemeHttps.isPrefixOf (ensured u) then "https".data else "http".data

/-- The characters following `scheme://` in the scheme-defaulted input. -/
def restOf (u : List Char) : List Char :=
  if schemeHttps.isPrefixOf (ensured u) then (ensured u).drop 8 else (ensured u).drop 7

/-- `urlparse(url).netloc` before lower-casing: everything up to the first
`'/'`, `'?'` or `'#'`. -/
def netlocRaw (u : List Char) : List Char :=
  (restOf u).takeWhile (fun c => !(isNetlocDelim c))

/-- What follows the netloc (empty, or starting with `'/'`, `'?'` or `'#'`). -/
def restAfterNetloc (u : List Char) : List Char :=
  (restOf u).drop (netlocRaw u).length

/-- `urlparse(url).path` before params-splitting: the remainder up to the
first `'?'` or `'#'` (urlsplit cuts the fragment first, then the query; with
no `'?'`/`'#'` inside the netloc portion this is a single `takeWhile`). -/
def pathRaw (u : List Char) : List Char :=
  (restAfterNetloc u).takeWhile (fun c => !(c == '?' || c == '#'))

/-- `urlparse(url).path`: params split off the last segment. -/
def pathParams (u : List Char) : List Char := splitParamsL (pathRaw u)

/-- `parsed.netloc.lower()`.  Python `str.lower()` on the ASCII hostnames this
pipeline sees is `Char.toLower` character-wise. -/
def netlocLower (u : List Char) : List Char := (netlocRaw u).map Char.toLower

/-- The `if netloc.startswith("www."): netloc = netloc[4:]` step. -/
def netlocFinal (u : List Char) : List Char :=
  if "www.".data.isPrefixOf (netlocLower u) then (netlocLower u).drop 4 else netlocLower u

/-- `parsed.path.rstrip("/") or "/"`. -/
def pathFinal (u : List Char) : List Char :=
  if rstripSlashL (pathParams u) = [] then ['/'] else rstripSlashL (pathParams u)

/-- The `(scheme, netloc, path)` triple `normalize_url` hands to `urlunparse`
(params, query and fragment are passed as `""` and dropped). -/
def normalizeParts (u : List Char) : List Char × List Char × List Char :=
  (schemeOf u, netlocFinal u, pathFinal u)

/-- `urlunparse((scheme, netloc, path, "", "", ""))` for a nonempty scheme in
`uses_netloc` (both schemes here are), following `urllib.parse.urlunsplit`:
when the netloc is nonempty or the path does not already start with `"//"`,
the path is made absolute and `"//" + netloc` is prepended; the scheme and a
`':'` always lead. -/
def unparseL (scheme netloc path : List Char) : List Char :=
  if netloc ≠ [] ∨ ¬ (['/', '/'].isPrefixOf path) then
    let p1 := if path ≠ [] ∧ ¬ (['/'].isPrefixOf path) then '/' :: path else path
    scheme ++ ':' :: ('/' :: '/' :: (netloc ++ p1))
  else
    scheme ++ ':' :: path

/-- `normalize_url` from `app/services/scorer.py` on the character list of the
input (empty input short-circuits to `""`). -/
def normalizeL (u : List Char) : List Char :=
  if u = [] then []
  else
    let parts := normalizeParts u
    unparseL parts.1 parts.2.1 parts.2.2

/-- `normalize_url` from `app/services/scorer.py`. -/
def normalize_url (u : String) : String := String.mk (normalizeL u.data)

/-- Row of the `score_cache` table (`app/models.py`, class `ScoreCache`).
`fetched_at` is a UTC timestamp in seconds; its column default is the
insertion time, which the embedding makes explicit. -/
structure ScoreCache where
  url_hash : String
  normalized_url : String
  heuristic_result : Option HeurBlob
  ai_result : Option AiScorer.AiReview
  final_score : Int
  confidence : ℚ
  fetched_at : Int
deriving DecidableEq

/-- The dictionary `get_cached_score` returns on a hit. -/
structure CachedResult where
  final_score : Int
  confidence : ℚ
  heuristic_score : Int
  ai_score : Int
  breakdown_heuristic : List (String × Int)
  breakdown_ai : List (String × Int)
  evidence : List (String × Int)
  ai_justifications : List (String × String)
  plain_english_report : AiScorer.PlainReport
  rendering_limitations : Bool
  cached : Bool
deriving DecidableEq

/-- `get_cached_score` from `app/services/scorer.py`: look the normalized
URL's hash up, treat an entry older than `max_age_hours` as absent, otherwise
rebuild the result dictionary from the stored row.  `now` is
`datetime.now(timezone.utc)` in seconds, so the cutoff sits
`max_age_hours * 3600` seconds in the past. -/
def get_cached_score (db : List ScoreCache) (now : Int) (url : String)
    (max_age_hours : Int) : Option CachedResult :=
  let normalized := normalize_url url
  let url_hash := url_to_hash normalized
  match db.find? (fun e => e.url_hash == url_hash) with
  | none => none
  | some entry =>
    let cutoff := now - max_age_hours * 3600
    if entry.fetched_at < cutoff then none
    else
      let heuristic_data := entry.heuristic_result.getD HeurBlob.empty
      let ai_data := entry.ai_result.getD AiScorer.AiReview.empty
      let ai_scores := ai_data.category_scores
      some { final_score := entry.final_score,
             confidence := entry.confidence,
             heuristic_score := heuristic_data.total_heuristic,
             ai_score := min 50 ((ai_scores.map (·.2)).sum),
             breakdown_heuristic := heuristic_data.scores,
             breakdown_ai := ai_scores,
             evidence := heuristic_data.evidence,
             ai_justifications := ai_data.justifications,
             plain_english_report := ai_data.plain_english_report,
             rendering_limitations := heuristic_data.rendering_limitations,
             cached := true }

/-- The `cache_data` dictionary handed to `save_score_to_cache`; the `.get`
reads with defaults make every key optional. -/
structure ScoreData where
  heuristic : Option HeurBlob
  ai_review : Option AiScorer.AiReview
  final_score : Option Int
  confidence : Option ℚ
deriving DecidableEq

/-- In-place update of the first row with the given hash (the ORM mutates the
queried row object; `url_hash` is the primary key, so at most one row
matches). -/
def replaceFirst (db : List ScoreCache) (h : String) (e2 : ScoreCache) : List ScoreCache :=
  match db with
  | [] => []
  | e :: es => if e.url_hash == h then e2 :: es else e :: replaceFirst es h e2

/-- `save_score_to_cache` from `app/services/scorer.py`: upsert keyed by the
hash of the normalized URL, stamping `fetched_at = now` (explicitly on update,
via the column default on insert).  The committed success path is modelled;
the source catches a failing commit, rolls back and logs, leaving the
database unchanged. -/
def save_score_to_cache (db : List ScoreCache) (now : Int) (url : String)
    (score_data : ScoreData) : List ScoreCache :=
  let normalized := normalize_url url
  let url_hash := url_to_hash normalized
  match db.find? (fun e => e.url_hash == url_hash) with
  | some entry =>
    let entry2 : ScoreCache :=
      { entry with
          heuristic_result := score_data.heuristic,
          ai_result := score_data.ai_review,
          final_score := score_data.final_score.getD 0,
          confidence := score_data.confidence.getD (1/2),
          fetched_at := now }
    replaceFirst db url_hash entry2
  | none =>
    db ++ [{ url_hash := url_hash, normalized_url := normalized,
             heuristic_result := score_data.heuristic,
             ai_result := score_data.ai_review,
             final_score := score_data.final_score.getD 0,
             confidence := score_data.confidence.getD (1/2),
             fetched_at := now }]

end Scorer

namespace Scorer

/-- The dictionary `fetch_multiple_pages` returns, restricted to the keys the
orchestrator reads (`final_url`, `combined_html`, `status`, `errors`); the
`.get` reads with defaults make the first and third optional. -/
structure FetchResult where
  final_url : Option String
  combined_html : String
  status : Option Int
  errors : List String
deriving DecidableEq

/-- The dictionary `detect_js_framework` returns, restricted to the keys the
orchestrator reads. -/
structure Detection where
  is_js_heavy : Bool
  framework_hints : List String
deriving DecidableEq

/-- `fetch_status in [403, 401, 429]` from `score_website_hybrid` (a missing
status — Python `None` — is never in the list). -/
def isBlockedStatus (st : Option Int) : Bool :=
  st == some 403 || st == some 401 || st == some 429

/-- Python `round(x, 2)` on the confidence average.  Mathlib's `round` rounds
half away from zero where Python rounds half to even; the two differ only on
exact midpoints `x * 100 + 1/2 ∈ ℤ`, which none of the claims touch. -/
def round2 (q : ℚ) : ℚ := (round (q * 100) : ℚ) / 100

/-- The dictionary `combine_scores` (`app/services/ai_scorer.py`) returns. -/
structure CombineBase where
  final_score : Int
  confidence : ℚ
  heuristic_score : Int
  ai_score : Int
  breakdown_heuristic : List (String × Int)
  breakdown_ai : List (String × Int)
  evidence : List (String × Int)
  ai_justifications : List (String × String)
  plain_english_report : AiScorer.PlainReport
  rendering_limitations : Bool
  insufficient_evidence : Bool
deriving DecidableEq

/-- `combine_scores` from `app/services/ai_scorer.py`.  `final_score` is
`round(heuristic_total + ai_total)` on two integers, hence plain addition. -/
def combine_scores (heuristic : HeurBlob) (ai_review : AiScorer.AiReview) : CombineBase :=
  let heuristic_total := heuristic.total_heuristic
  let ai_total := min 50 ((ai_review.category_scores.map (·.2)).sum)
  let final_score := heuristic_total + ai_total
  let word_count := (heuristic.evidence.lookup "text_word_count").getD 0
  let heuristic_confidence : ℚ := if word_count > 150 then 9/10 else 6/10
  let ai_confidence := ai_review.confidence
  { final_score := final_score,
    confidence := round2 ((heuristic_confidence + ai_confidence) / 2),
    heuristic_score := heuristic_total,
    ai_score := ai_total,
    breakdown_heuristic := heuristic.scores,
    breakdown_ai := ai_review.category_scores,
    evidence := heuristic.evidence,
    ai_justifications := ai_review.justifications,
    plain_english_report := ai_review.plain_english_report,
    rendering_limitations := heuristic.rendering_limitations,
    insufficient_evidence := ai_review.insufficient_evidence }

/-- The degenerate zero-score dictionary `score_website_hybrid` returns when
the fetch yields no HTML or a blocked status. -/
structure BlockedResult where
  final_score : Int
  confidence : ℚ
  heuristic_score : Int
  ai_score : Int
  breakdown_heuristic : List (String × Int)
  breakdown_ai : List (String × Int)
  has_errors : Bool
  errors : List String
  rendering_limitations : Bool
  bot_blocked : Bool
  plain_english_report : AiScorer.PlainReport
  cached : Bool
deriving DecidableEq

/-- The full-pipeline result: the `combine_scores` dictionary extended with
the keys the orchestrator adds.  `T` is the opaque shape of the
technographics stage's output. -/
structure ScoredResult (T : Type) where
  base : CombineBase
  cached : Bool
  has_errors : Bool
  errors : List String
  js_detected : Bool
  framework_hints : List String
  technographics : T

/-- The three shapes of dictionary `score_website_hybrid` can return; the
constructor records which stages ran (a cache hit or a blocked fetch returns
before the heuristic / technographics / AI stages are invoked). -/
inductive ScoreOutcome (T : Type) where
  | fromCache (r : CachedResult)
  | blocked (r : BlockedResult)
  | scored (r : ScoredResult T)

/-- `score_website_hybrid` from `app/services/scorer.py`.  The downstream
stages (`fetch_multiple_pages`, `detect_js_framework`, `score_site_heuristics`,
`detect_technographics`, `extract_site_content_for_ai`, `score_with_ai`) live
outside this file's scope and enter as function parameters — `T` and `C` are
the opaque shapes of the technographics result and of the extracted site
content; `ai_stage` receives exactly the arguments the source passes
(`site_content`, `heuristic_evidence`, `final_url`, `rendering_limitations`,
`technographics`).  Returns the result and the cache database after the
optional write-through. -/
def score_website_hybrid {T C : Type}
    (db : List ScoreCache) (now : Int) (url : String) (use_cache : Bool)
    (fetch_multiple_pages : String → FetchResult)
    (detect_js_framework : String → Detection)
    (score_site_heuristics : String → String → HeurBlob)
    (detect_technographics : String → String → T)
    (extract_site_content_for_ai : String → C)
    (ai_stage : C → List (String × Int) → String → Bool → T → AiScorer.AiReview) :
    ScoreOutcome T × List ScoreCache :=
  match (if use_cache then get_cached_score db now url 24 else none) with
  | some cached => (.fromCache cached, db)
  | none =>
    let fetch_result := fetch_multiple_pages url
    let final_url := fetch_result.final_url.getD url
    let static_html := fetch_result.combined_html
    let fetch_status := fetch_result.status
    let is_blocked := isBlockedStatus fetch_status
    if static_html == "" || is_blocked then
      (.blocked
        { final_score := 0, confidence := 3/10, heuristic_score := 0, ai_score := 0,
          breakdown_heuristic := [], breakdown_ai := [],
          has_errors := true, errors := fetch_result.errors,
          rendering_limitations := true, bot_blocked := is_blocked,
          plain_english_report :=
            { strengths := if is_blocked then ["Website has security measures in place"] else [],
              weaknesses := [],
              technology_observations := "Unable to access website for analysis",
              sales_opportunities := [] },
          cached := false }, db)
    else
      let detection := detect_js_framework static_html
      let heuristic := score_site_heuristics static_html final_url
      let technographics_data := detect_technographics static_html final_url
      let rendering_limitations := heuristic.rendering_limitations || detection.is_js_heavy
      let site_content := extract_site_content_for_ai static_html
      let ai_review := ai_stage site_content heuristic.evidence final_url
        rendering_limitations technographics_data
      let result := combine_scores heuristic ai_review
      let outcome : ScoredResult T :=
        { base := result, cached := false, has_errors := false,
          errors := fetch_result.errors, js_detected := detection.is_js_heavy,
          framework_hints := detection.framework_hints,
          technographics := technographics_data }
      let db2 :=
        if use_cache then
          save_score_to_cache db now url
            { heuristic := some heuristic, ai_review := some ai_review,
              final_score := some result.final_score,
              confidence := some result.confidence }
        else db
      (.scored outcome, db2)

end Scorer

/-! ## Ledger lemmas and the credit claims -/

theorem stateBalance_applyOp (s : Credits.LedgerState) (op : Credits.CreditOp) :
    Credits.stateBalance (Credits.applyOp s op)
      = Credits.stateBalance s + Credits.opDelta s op := by
  cases op with
  | deduct a c d =>
    by_cases hc : Credits.costOf a * c = 0
    · simp [Credits.applyOp, Credits.deduct_credits, Credits.opDelta, hc,
            Credits.stateBalance, Credits.getOrCreateRow]
    · by_cases hb : (Credits.getOrCreateRow s).balance < Credits.costOf a * c
      · simp only [Credits.getOrCreateRow] at hb
        simp [Credits.applyOp, Credits.deduct_credits, Credits.opDelta, hc, hb,
              Credits.stateBalance, Credits.getOrCreateRow]
      · simp only [Credits.getOrCreateRow] at hb
        simp [Credits.applyOp, Credits.deduct_credits, Credits.opDelta, hc, hb,
              Credits.stateBalance, Credits.getOrCreateRow]
        ring
  | add amt d =>
    simp [Credits.applyOp, Credits.add_credits, Credits.opDelta,
          Credits.stateBalance, Credits.getOrCreateRow]

theorem txSum_applyOp (s : Credits.LedgerState) (op : Credits.CreditOp) :
    Credits.txSum (Credits.applyOp s op) = Credits.txSum s + Credits.opDelta s op := by
  cases op with
  | deduct a c d =>
    by_cases hc : Credits.costOf a * c = 0
    · simp [Credits.applyOp, Credits.deduct_credits, Credits.opDelta, hc, Credits.txSum]
    · by_cases hb : (Credits.getOrCreateRow s).balance < Credits.costOf a * c
      · simp only [Credits.getOrCreateRow] at hb
        simp [Credits.applyOp, Credits.deduct_credits, Credits.opDelta, hc, hb,
              Credits.txSum, Credits.stateBalance, Credits.getOrCreateRow]
      · simp only [Credits.getOrCreateRow] at hb
        simp [Credits.applyOp, Credits.deduct_credits, Credits.opDelta, hc, hb,
              Credits.txSum, Credits.stateBalance, Credits.getOrCreateRow]
  | add amt d =>
    simp [Credits.applyOp, Credits.add_credits, Credits.opDelta, Credits.txSum]

theorem stateBalance_runOps (ops : List Credits.CreditOp) :
    ∀ s : Credits.LedgerState,
      Credits.stateBalance (Credits.runOps s ops)
        = Credits.stateBalance s + Credits.netDelta s ops := by
  induction ops with
  | nil => intro s; simp [Credits.runOps, Credits.netDelta]
  | cons op ops ih =>
    intro s
    simp only [Credits.runOps, Credits.netDelta]
    rw [ih, stateBalance_applyOp]
    ring

theorem txSum_runOps (ops : List Credits.CreditOp) :
    ∀ s : Credits.LedgerState,
      Credits.txSum (Credits.runOps s ops) = Credits.txSum s + Credits.netDelta s ops := by
  induction ops with
  | nil => intro s; simp [Credits.runOps, Credits.netDelta]
  | cons op ops ih =>
    intro s
    simp only [Credits.runOps, Credits.netDelta]
    rw [ih, txSum_applyOp]
    ring

/-- C1.  Credit conservation: along any sequence of (successful) ledger
debits and credits on one user, the final balance is the initial balance plus
the credited amounts minus the successfully debited costs, and — provided the
transaction rows accounted for the balance at the start, as they do for a
freshly created user — the sum of all recorded `CreditTransaction` amounts
equals the final balance. -/
theorem credit_conservation (s : Credits.LedgerState) (ops : List Credits.CreditOp)
    (h : Credits.txSum s = Credits.stateBalance s) :
    Credits.stateBalance (Credits.runOps s ops)
        = Credits.stateBalance s + Credits.netDelta s ops ∧
    Credits.txSum (Credits.runOps s ops)
        = Credits.stateBalance (Credits.runOps s ops) := by
  refine ⟨stateBalance_runOps ops s, ?_⟩
  rw [txSum_runOps ops s, stateBalance_runOps ops s, h]

/-- Closed witness for C1: a user whose two recorded transactions sum to the
current balance, running one credit of 10 and two debits (one succeeding, one
failing for insufficient funds). -/
theorem credit_conservation_witness :
    (Credits.txSum ⟨some ⟨3, 5, 2⟩,
        [⟨5, "purchase", "topup", 5, none, none⟩, ⟨-2, "usage", "u", 3, none, none⟩]⟩
      = Credits.stateBalance ⟨some ⟨3, 5, 2⟩,
        [⟨5, "purchase", "topup", 5, none, none⟩, ⟨-2, "usage", "u", 3, none, none⟩]⟩) ∧
    (Credits.stateBalance (Credits.runOps ⟨some ⟨3, 5, 2⟩,
        [⟨5, "purchase", "topup", 5, none, none⟩, ⟨-2, "usage", "u", 3, none, none⟩]⟩
        [.add 10 "p", .deduct "sms_send" 3 none, .deduct "sms_send" 99 none])
      = Credits.stateBalance ⟨some ⟨3, 5, 2⟩,
        [⟨5, "purchase", "topup", 5, none, none⟩, ⟨-2, "usage", "u", 3, none, none⟩]⟩
        + Credits.netDelta ⟨some ⟨3, 5, 2⟩,
        [⟨5, "purchase", "topup", 5, none, none⟩, ⟨-2, "usage", "u", 3, none, none⟩]⟩
        [.add 10 "p", .deduct "sms_send" 3 none, .deduct "sms_send" 99 none]) ∧
    (Credits.txSum (Credits.runOps ⟨some ⟨3, 5, 2⟩,
        [⟨5, "purchase", "topup", 5, none, none⟩, ⟨-2, "usage", "u", 3, none, none⟩]⟩
        [.add 10 "p", .deduct "sms_send" 3 none, .deduct "sms_send" 99 none])
      = Credits.stateBalance (Credits.runOps ⟨some ⟨3, 5, 2⟩,
        [⟨5, "purchase", "topup", 5, none, none⟩, ⟨-2, "usage", "u", 3, none, none⟩]⟩
        [.add 10 "p", .deduct "sms_send" 3 none, .deduct "sms_send" 99 none])) :=
  ⟨by decide, credit_conservation _ _ (by decide)⟩

theorem costOf_ai_scoring : Credits.costOf "ai_scoring" = 1 := by decide

theorem runAttempts_spec (C : Nat) (hC : 0 < C) :
    ∀ (N B : Nat) (tp tu : Int) (txs : List Credits.CreditTransaction),
      (Credits.runAttempts "ai_scoring" (C : Int) N ⟨some ⟨(B : Int), tp, tu⟩, txs⟩).2
          = min N (B / C) ∧
      ∃ tp2 tu2 txs2,
        (Credits.runAttempts "ai_scoring" (C : Int) N ⟨some ⟨(B : Int), tp, tu⟩, txs⟩).1
          = ⟨some ⟨((B - C * min N (B / C) : Nat) : Int), tp2, tu2⟩, txs2⟩ := by
  intro N
  induction N with
  | zero =>
    intro B tp tu txs
    refine ⟨by simp [Credits.runAttempts], tp, tu, txs, ?_⟩
    simp [Credits.runAttempts]
  | succ n ih =>
    intro B tp tu txs
    have hc0 : ¬ (Credits.costOf "ai_scoring" * (C : Int) = 0) := by
      rw [costOf_ai_scoring, one_mul]
      exact_mod_cast hC.ne'
    by_cases hbc : B < C
    · have hbci : ((B : Int)) < Credits.costOf "ai_scoring" * (C : Int) := by
        rw [costOf_ai_scoring, one_mul]; exact_mod_cast hbc
      have hdiv : B / C = 0 := Nat.div_eq_of_lt hbc
      have hstep :
          Credits.deduct_credits ⟨some ⟨(B : Int), tp, tu⟩, txs⟩ "ai_scoring" (C : Int) none
            = ((false, (B : Int)), ⟨some ⟨(B : Int), tp, tu⟩, txs⟩) := by
        simp [Credits.deduct_credits, hc0, Credits.getOrCreateRow, hbci]
      obtain ⟨ihc, tp2, tu2, txs2, ihs⟩ := ih B tp tu txs
      refine ⟨?_, tp2, tu2, txs2, ?_⟩
      · simp [Credits.runAttempts, hstep, ihc, hdiv]
      · simp [Credits.runAttempts, hstep, ihs, hdiv]
    · have hcb : C ≤ B := Nat.le_of_not_lt hbc
      have hbci : ¬ ((B : Int) < Credits.costOf "ai_scoring" * (C : Int)) := by
        rw [costOf_ai_scoring, one_mul]
        exact_mod_cast hbc
      have hcast : (B : Int) - Credits.costOf "ai_scoring" * (C : Int) = ((B - C : Nat) : Int) := by
        rw [costOf_ai_scoring, one_mul]
        omega
      have hstep :
          (Credits.deduct_credits ⟨some ⟨(B : Int), tp, tu⟩, txs⟩ "ai_scoring" (C : Int) none).1.1
              = true ∧
          (Credits.deduct_credits ⟨some ⟨(B : Int), tp, tu⟩, txs⟩ "ai_scoring" (C : Int) none).2
              = ⟨some ⟨((B - C : Nat) : Int), tp,
                      tu + Credits.costOf "ai_scoring" * (C : Int)⟩,
                 txs ++ [⟨-(Credits.costOf "ai_scoring" * (C : Int)), "usage",
                          "ai_scoring x" ++ toString (C : Int), ((B - C : Nat) : Int),
                          none, none⟩]⟩ := by
        constructor
        · simp [Credits.deduct_credits, hc0, Credits.getOrCreateRow, hbci]
        · simp [Credits.deduct_credits, hc0, Credits.getOrCreateRow, hbci, hcast]
      have hdiv : B / C = (B - C) / C + 1 := by
        rw [Nat.div_eq_sub_div hC hcb]
      obtain ⟨ihc, tp2, tu2, txs2, ihs⟩ := ih (B - C) tp
        (tu + Credits.costOf "ai_scoring" * (C : Int))
        (txs ++ [⟨-(Credits.costOf "ai_scoring" * (C : Int)), "usage",
                  "ai_scoring x" ++ toString (C : Int), ((B - C : Nat) : Int), none, none⟩])
      have hmin : min (n + 1) (B / C) = min n ((B - C) / C) + 1 := by
        rw [hdiv, Nat.succ_min_succ]
      have hsub : B - C * min (n + 1) (B / C) = (B - C) - C * min n ((B - C) / C) := by
        rw [hmin, Nat.mul_succ]
        omega
      refine ⟨?_, tp2, tu2, txs2, ?_⟩
      · simp only [Credits.runAttempts, hstep.1, hstep.2, if_pos, ihc, hmin]
        omega
      · simp only [Credits.runAttempts, hstep.2, ihs, hsub]

/-- C2.  No double-spend: the `with_for_update()` row lock serializes the `N`
concurrent debit attempts into some sequential order, modelled by
`runAttempts`; for any starting balance `B`, any positive cost `C` (the
per-unit price 1 `ai_scoring` action taken `C` times) with `B < N × C`,
exactly `⌊B / C⌋` of the `N` attempts succeed, and the committed balance is
non-negative after every prefix of the run. -/
theorem no_double_spend (B C N : Nat) (tp tu : Int)
    (txs : List Credits.CreditTransaction) (hC : 0 < C) (hlt : B < N * C) :
    (Credits.runAttempts "ai_scoring" (C : Int) N ⟨some ⟨(B : Int), tp, tu⟩, txs⟩).2
        = B / C ∧
    ∀ k : Nat,
      0 ≤ Credits.stateBalance
            (Credits.runAttempts "ai_scoring" (C : Int) k ⟨some ⟨(B : Int), tp, tu⟩, txs⟩).1 := by
  have hdivlt : B / C < N := (Nat.div_lt_iff_lt_mul hC).mpr hlt
  constructor
  · rw [(runAttempts_spec C hC N B tp tu txs).1]
    exact min_eq_right (Nat.le_of_lt hdivlt)
  · intro k
    obtain ⟨-, tp2, tu2, txs2, hs⟩ := runAttempts_spec C hC k B tp tu txs
    rw [hs]
    simp [Credits.stateBalance, Credits.getOrCreateRow]

/-- Closed witness for C2: balance 5, cost 2, 4 concurrent attempts — exactly
2 succeed and the balance stays non-negative (checked at prefix 3). -/
theorem no_double_spend_witness :
    (0 < 2 ∧ 5 < 4 * 2) ∧
    ((Credits.runAttempts "ai_scoring" ((2 : Nat) : Int) 4 ⟨some ⟨((5 : Nat) : Int), 5, 0⟩, []⟩).2
        = 5 / 2 ∧
     ∀ k : Nat,
       0 ≤ Credits.stateBalance
             (Credits.runAttempts "ai_scoring" ((2 : Nat) : Int) k
               ⟨some ⟨((5 : Nat) : Int), 5, 0⟩, []⟩).1) :=
  ⟨⟨by decide, by decide⟩, no_double_spend 5 2 4 5 0 [] (by decide) (by decide)⟩

theorem reconciled_applyOp (s : Credits.LedgerState) (op : Credits.CreditOp)
    (h : Credits.ledgerReconciled s) :
    Credits.ledgerReconciled (Credits.applyOp s op) := by
  have hrow : Credits.rowReconciled (Credits.getOrCreateRow s) := by
    cases hs : s.credits with
    | none => simp [Credits.getOrCreateRow, hs, Credits.freshRow, Credits.rowReconciled]
    | some r => simpa [Credits.getOrCreateRow, hs] using h r hs
  cases op with
  | deduct a c d =>
    by_cases hc : Credits.costOf a * c = 0
    · intro r hr
      simp [Credits.applyOp, Credits.deduct_credits, hc] at hr
      rw [← hr]; exact hrow
    · by_cases hb : (Credits.getOrCreateRow s).balance < Credits.costOf a * c
      · intro r hr
        simp only [Credits.getOrCreateRow] at hb
        simp [Credits.applyOp, Credits.deduct_credits, hc, hb, Credits.getOrCreateRow] at hr
        rw [← hr]; exact hrow
      · intro r hr
        simp only [Credits.getOrCreateRow] at hb
        simp [Credits.applyOp, Credits.deduct_credits, hc, hb, Credits.getOrCreateRow] at hr
        rw [← hr]
        simp [Credits.rowReconciled, Credits.getOrCreateRow] at hrow ⊢
        omega
  | add amt d =>
    intro r hr
    simp [Credits.applyOp, Credits.add_credits] at hr
    rw [← hr]
    simp [Credits.rowReconciled, Credits.getOrCreateRow] at hrow ⊢
    omega

/-- C3 (amended).  `balance == total_purchased − total_used` is reconciled by
every `deduct_credits` / `add_credits` mutation: any run of ledger debits and
credits preserves it.  The drip-issuance operations do **not** preserve it —
they add to `balance` without touching `total_purchased` (see the
counterexample) — so the amended claim restricts the invariant to the
`CreditManager` mutations. -/
theorem balance_reconciled_by_ledger_ops (s : Credits.LedgerState)
    (ops : List Credits.CreditOp) (h : Credits.ledgerReconciled s) :
    Credits.ledgerReconciled (Credits.runOps s ops) := by
  induction ops generalizing s with
  | nil => exact h
  | cons op ops ih => exact ih _ (reconciled_applyOp s op h)

/-- Counterexample to C3 as stated: from a reconciled state
(`balance = total_purchased = total_used = 0`), `issue_initial_credits` for
the `starter_monthly` plan leaves `balance = 63` but
`total_purchased − total_used = 0`, violating the invariant; the weekly drip
`issue_credits_for_user` does the same (issuing 63 for week 0 of a fresh
period). -/
theorem drip_issuance_breaks_reconciliation :
    ((Drip.issue_initial_credits ⟨some ⟨0, 0, 0⟩, none, []⟩ "starter_monthly" 0).2.user_credits
        = some ⟨63, 0, 0⟩ ∧
      ¬ Credits.rowReconciled ⟨63, 0, 0⟩) ∧
    ((Drip.issue_credits_for_user ⟨"active", "starter_monthly", some 0, some 2592000⟩
          ⟨⟨none, 0⟩, ⟨0, 0, 0⟩, []⟩ 0).2.user_credits = ⟨63, 0, 0⟩ ∧
      ¬ Credits.rowReconciled ⟨63, 0, 0⟩) := by
  constructor
  · exact ⟨by decide, by decide⟩
  · exact ⟨by decide, by decide⟩

/-- Closed witness for the amended C3: a reconciled user stays reconciled
through a credit of 7 and a successful debit. -/
theorem balance_reconciled_witness :
    Credits.ledgerReconciled ⟨some ⟨4, 10, 6⟩, []⟩ ∧
    Credits.ledgerReconciled
      (Credits.runOps ⟨some ⟨4, 10, 6⟩, []⟩ [.add 7 "p", .deduct "ai_scoring" 2 none]) :=
  ⟨by intro r hr; simp at hr; rw [← hr]; decide,
   balance_reconciled_by_ledger_ops _ _ (by intro r hr; simp at hr; rw [← hr]; decide)⟩

/-- C10.  Zero-cost and unknown actions bypass the ledger: when the price
table gives the action cost 0 (explicitly, or by the `.get(action, 0)`
default for an unknown action), `deduct_credits` reports success with the
current balance, appends no `CreditTransaction`, and leaves an existing
`UserCredits` row untouched (for a missing row it only performs the lazy
zero-row creation of `get_or_create`, acquiring no row lock). -/
theorem zero_cost_actions_bypass_ledger (s : Credits.LedgerState) (action : String)
    (count : Int) (d : Option String) (h : Credits.costOf action = 0) :
    (Credits.deduct_credits s action count d).1 = (true, Credits.stateBalance s) ∧
    ((Credits.deduct_credits s action count d).2).transactions = s.transactions ∧
    (∀ r, s.credits = some r → (Credits.deduct_credits s action count d).2 = s) := by
  have hc : Credits.costOf action * count = 0 := by rw [h]; ring
  refine ⟨by simp [Credits.deduct_credits, hc], by simp [Credits.deduct_credits, hc], ?_⟩
  intro r hr
  cases s with
  | mk cr tx =>
    simp only at hr
    subst hr
    simp [Credits.deduct_credits, hc, Credits.getOrCreateRow]

/-- Closed witness for C10: `lead_search` is priced 0 and `not_an_action` is
absent from the price table; both bypass the ledger on a concrete state. -/
theorem zero_cost_actions_witness :
    (Credits.costOf "lead_search" = 0 ∧
      (Credits.deduct_credits ⟨some ⟨9, 9, 0⟩, []⟩ "lead_search" 5 none).1
          = (true, Credits.stateBalance ⟨some ⟨9, 9, 0⟩, []⟩) ∧
      ((Credits.deduct_credits ⟨some ⟨9, 9, 0⟩, []⟩ "lead_search" 5 none).2).transactions
          = ([] : List Credits.CreditTransaction) ∧
      (∀ r, (⟨some ⟨9, 9, 0⟩, []⟩ : Credits.LedgerState).credits = some r →
        (Credits.deduct_credits ⟨some ⟨9, 9, 0⟩, []⟩ "lead_search" 5 none).2
            = ⟨some ⟨9, 9, 0⟩, []⟩)) ∧
    (Credits.costOf "not_an_action" = 0 ∧
      (Credits.deduct_credits ⟨some ⟨9, 9, 0⟩, []⟩ "not_an_action" 1 none).1
          = (true, Credits.stateBalance ⟨some ⟨9, 9, 0⟩, []⟩)) :=
  ⟨⟨by decide, zero_cost_actions_bypass_ledger _ _ _ _ (by decide)⟩,
   ⟨by decide, (zero_cost_actions_bypass_ledger ⟨some ⟨9, 9, 0⟩, []⟩ "not_an_action" 1 none
      (by decide)).1⟩⟩

/-! ## Drip lemmas and claims -/

theorem get_current_week_le_three (ps t : Int) : Drip.get_current_week ps t ≤ 3 := by
  simp only [Drip.get_current_week]
  split
  · omega
  · split
    · omega
    · split <;> omega

theorem credits_due_congr (m : Nat) (ps t1 t2 : Int) (w : Nat)
    (h : Drip.get_current_week ps t1 = Drip.get_current_week ps t2) :
    Drip.calculate_credits_due m ps t2 w = Drip.calculate_credits_due m ps t1 w := by
  simp only [Drip.calculate_credits_due, h]

theorem credits_due_second_call (m : Nat) (ps t : Int) (w : Nat) :
    Drip.calculate_credits_due m ps t ((Drip.calculate_credits_due m ps t w).2)
      = (0, (Drip.calculate_credits_due m ps t w).2) := by
  have hcw := get_current_week_le_three ps t
  by_cases h4 : w ≥ 4
  · simp [Drip.calculate_credits_due, h4]
  · by_cases hle : Drip.get_current_week ps t + 1 ≤ w
    · simp [Drip.calculate_credits_due, h4, hle]
    · have hfst : (Drip.calculate_credits_due m ps t w).2 = Drip.get_current_week ps t + 1 := by
        simp [Drip.calculate_credits_due, h4, hle]
      rw [hfst]
      by_cases h4' : Drip.get_current_week ps t + 1 ≥ 4
      · have : Drip.get_current_week ps t + 1 = 4 := by omega
        simp [Drip.calculate_credits_due, this]
      · simp [Drip.calculate_credits_due, h4']

/-- C4.  Drip idempotence: for an eligible subscription (status active or
canceling, period bounds present, known plan) and two issuance times `t1`,
`t2` inside the period that fall in the same week
(`get_current_week` agrees), the second `issue_credits_for_user` call returns
0, appends no `CreditTransaction`, and leaves the issuance cursor at the
value the first call set. -/
theorem drip_idempotent (sub : Drip.Subscription) (st : Drip.DripState)
    (t1 t2 ps pe : Int)
    (hstatus : sub.status = "active" ∨ sub.status = "canceling")
    (hps : sub.current_period_start = some ps)
    (hpe : sub.current_period_end = some pe)
    (hplan : (Drip.get_plan_config sub.package_id).isSome = true)
    (ht1 : ¬ t1 > pe) (ht2 : ¬ t2 > pe)
    (hweek : Drip.get_current_week ps t1 = Drip.get_current_week ps t2) :
    (Drip.issue_credits_for_user sub (Drip.issue_credits_for_user sub st t1).2 t2).1 = 0 ∧
    ((Drip.issue_credits_for_user sub (Drip.issue_credits_for_user sub st t1).2 t2).2).transactions
        = ((Drip.issue_credits_for_user sub st t1).2).transactions ∧
    ((Drip.issue_credits_for_user sub
        (Drip.issue_credits_for_user sub st t1).2 t2).2).credit_state.issuance_cursor
        = ((Drip.issue_credits_for_user sub st t1).2).credit_state.issuance_cursor := by
  obtain ⟨cfg, hcfg⟩ := Option.isSome_iff_exists.mp hplan
  have hnn : ¬ ¬ (sub.status = "active" ∨ sub.status = "canceling") := not_not_intro hstatus
  have hcur1 :
      (Drip.issue_credits_for_user sub st t1).2.credit_state.issuance_cursor
        = (Drip.calculate_credits_due cfg.monthly_credits ps t1
            st.credit_state.issuance_cursor).2 := by
    simp [Drip.issue_credits_for_user, hps, hpe, hcfg, hnn, ht1]
  have hdue2 :
      Drip.calculate_credits_due cfg.monthly_credits ps t2
          (Drip.issue_credits_for_user sub st t1).2.credit_state.issuance_cursor
        = (0, (Drip.issue_credits_for_user sub st t1).2.credit_state.issuance_cursor) := by
    rw [hcur1, credits_due_congr cfg.monthly_credits ps t1 t2 _ hweek]
    exact credits_due_second_call cfg.monthly_credits ps t1 st.credit_state.issuance_cursor
  set A := Drip.issue_credits_for_user sub st t1 with hA
  refine ⟨?_, ?_, ?_⟩
  · simp [Drip.issue_credits_for_user, hps, hpe, hcfg, hnn, ht2, hdue2]
  · simp [Drip.issue_credits_for_user, hps, hpe, hcfg, hnn, ht2, hdue2]
  · simp [Drip.issue_credits_for_user, hps, hpe, hcfg, hnn, ht2, hdue2]

/-- Closed witness for C4: an active `starter_monthly` subscriber, first call
on day 0 at noon, second call on day 2 — the first issues 63, the second
issues 0 and moves nothing. -/
theorem drip_idempotent_witness :
    ((("active" = "active" ∨ ("active" : String) = "canceling")) ∧
      Drip.get_current_week 0 43200 = Drip.get_current_week 0 172800) ∧
    ((Drip.issue_credits_for_user ⟨"active", "starter_monthly", some 0, some 2678400⟩
        (Drip.issue_credits_for_user ⟨"active", "starter_monthly", some 0, some 2678400⟩
          ⟨⟨none, 0⟩, ⟨0, 0, 0⟩, []⟩ 43200).2 172800).1 = 0 ∧
     ((Drip.issue_credits_for_user ⟨"active", "starter_monthly", some 0, some 2678400⟩
        (Drip.issue_credits_for_user ⟨"active", "starter_monthly", some 0, some 2678400⟩
          ⟨⟨none, 0⟩, ⟨0, 0, 0⟩, []⟩ 43200).2 172800).2).transactions
        = ((Drip.issue_credits_for_user ⟨"active", "starter_monthly", some 0, some 2678400⟩
          ⟨⟨none, 0⟩, ⟨0, 0, 0⟩, []⟩ 43200).2).transactions ∧
     ((Drip.issue_credits_for_user ⟨"active", "starter_monthly", some 0, some 2678400⟩
        (Drip.issue_credits_for_user ⟨"active", "starter_monthly", some 0, some 2678400⟩
          ⟨⟨none, 0⟩, ⟨0, 0, 0⟩, []⟩ 43200).2 172800).2).credit_state.issuance_cursor
        = ((Drip.issue_credits_for_user ⟨"active", "starter_monthly", some 0, some 2678400⟩
          ⟨⟨none, 0⟩, ⟨0, 0, 0⟩, []⟩ 43200).2).credit_state.issuance_cursor) :=
  ⟨⟨Or.inl rfl, by decide⟩,
   drip_idempotent ⟨"active", "starter_monthly", some 0, some 2678400⟩
     ⟨⟨none, 0⟩, ⟨0, 0, 0⟩, []⟩ 43200 172800 0 2678400 (Or.inl rfl) rfl rfl (by decide)
     (by decide) (by decide) (by decide)⟩

/-- C5 (amended).  The eligibility gates `issue_credits_for_user` actually
implements: a status other than active / canceling, a missing period bound, a
current time *after* `period_end`, or an unknown `package_id` each make the
call return 0 with the state untouched.  A current time *before*
`period_start` is NOT gated — the counterexample shows the code then issues
the week-0 batch. -/
theorem drip_eligibility_gates (sub : Drip.Subscription) (st : Drip.DripState) (t : Int)
    (h : ¬ (sub.status = "active" ∨ sub.status = "canceling")
       ∨ sub.current_period_start = none
       ∨ sub.current_period_end = none
       ∨ (∃ pe, sub.current_period_end = some pe ∧ t > pe)
       ∨ Drip.get_plan_config sub.package_id = none) :
    Drip.issue_credits_for_user sub st t = (0, st) := by
  by_cases hs : sub.status = "active" ∨ sub.status = "canceling"
  · rcases h with h | h | h | ⟨pe, hpe, hgt⟩ | h
    · exact absurd hs h
    · cases hpe : sub.current_period_end with
      | none => simp [Drip.issue_credits_for_user, hs, h, hpe]
      | some pe => simp [Drip.issue_credits_for_user, hs, h, hpe]
    · cases hps : sub.current_period_start with
      | none => simp [Drip.issue_credits_for_user, hs, h, hps]
      | some ps => simp [Drip.issue_credits_for_user, hs, h, hps]
    · cases hps : sub.current_period_start with
      | none => simp [Drip.issue_credits_for_user, hs, hps]
      | some ps => simp [Drip.issue_credits_for_user, hs, hps, hpe, hgt]
    · cases hps : sub.current_period_start with
      | none => simp [Drip.issue_credits_for_user, hs, hps]
      | some ps =>
        cases hpe : sub.current_period_end with
        | none => simp [Drip.issue_credits_for_user, hs, hps, hpe]
        | some pe =>
          by_cases hgt : t > pe
          · simp [Drip.issue_credits_for_user, hs, hps, hpe, hgt]
          · simp [Drip.issue_credits_for_user, hs, hps, hpe, hgt, h]
  · simp [Drip.issue_credits_for_user, hs]

/-- Counterexample to C5 as stated: an active `starter_monthly` subscription
whose period starts at `t = 86400` (day 1); calling the drip at `t = 0` —
*before* `period_start`, so outside `[period_start, period_end]` — issues 63
credits instead of nothing (`(current − start).days` is negative, which
`get_current_week` treats as week 0). -/
theorem drip_issues_before_period_start :
    (Drip.issue_credits_for_user ⟨"active", "starter_monthly", some 86400, some 2678400⟩
        ⟨⟨none, 0⟩, ⟨0, 0, 0⟩, []⟩ 0).1 = 63 ∧ (63 : Nat) ≠ 0 := by
  constructor
  · decide
  · decide

/-- Closed witness for the amended C5: a `canceled` subscription is gated. -/
theorem drip_eligibility_gates_witness :
    (¬ (("canceled" : String) = "active" ∨ ("canceled" : String) = "canceling")
       ∨ (some 0 : Option Int) = none
       ∨ (some 2678400 : Option Int) = none
       ∨ (∃ pe, (some 2678400 : Option Int) = some pe ∧ (43200 : Int) > pe)
       ∨ Drip.get_plan_config "starter_monthly" = none) ∧
    Drip.issue_credits_for_user ⟨"canceled", "starter_monthly", some 0, some 2678400⟩
        ⟨⟨none, 0⟩, ⟨5, 5, 0⟩, []⟩ 43200 = (0, ⟨⟨none, 0⟩, ⟨5, 5, 0⟩, []⟩) :=
  ⟨Or.inl (by decide),
   drip_eligibility_gates ⟨"canceled", "starter_monthly", some 0, some 2678400⟩
     ⟨⟨none, 0⟩, ⟨5, 5, 0⟩, []⟩ 43200 (Or.inl (by decide))⟩

/-! ## AI scorer claims -/

/-- Counterexample to C8 as stated: a model response of
`{"a11y": 6}` (others 0) flagged `insufficient_evidence` on a page with 151
words of text takes the uplift path — `adj = (20 − 6)/5` — and returns
`a11y = 8`, above its cap of 6. -/
theorem ai_caps_counterexample :
    ((AiScorer.score_with_ai
        ⟨[("a11y", 6)], [], AiScorer.PlainReport.empty, true, 1⟩
        151).category_scores.lookup "a11y").getD 0 = 8 ∧
    ¬ ((8 : Int) ≤ 6) := by
  constructor
  · decide
  · decide

/-- C8 (amended).  The clamp in `score_with_ai` enforces the caps
brand ≤ 12, visual ≤ 10, conversion ≤ 12, trust ≤ 10, a11y ≤ 6 (and ≥ 0) on
every path on which the insufficient-evidence uplift does not fire; on the
uplift path (`insufficient_evidence`, clamped total < 20, word count > 150)
every category stays ≥ 0 but may exceed its cap by the uplift amount
`(20 − total)/5`, giving the weaker guaranteed bounds brand ≤ 13,
visual ≤ 12, conversion ≤ 13, trust ≤ 12, a11y ≤ 8. -/
theorem ai_category_caps (resp : AiScorer.AiResponse) (wc : Int) :
    (∀ p ∈ (AiScorer.score_with_ai resp wc).category_scores, 0 ≤ p.2) ∧
    ((((AiScorer.score_with_ai resp wc).category_scores.lookup "brand").getD 0 ≤ 13) ∧
     (((AiScorer.score_with_ai resp wc).category_scores.lookup "visual").getD 0 ≤ 12) ∧
     (((AiScorer.score_with_ai resp wc).category_scores.lookup "conversion").getD 0 ≤ 13) ∧
     (((AiScorer.score_with_ai resp wc).category_scores.lookup "trust").getD 0 ≤ 12) ∧
     (((AiScorer.score_with_ai resp wc).category_scores.lookup "a11y").getD 0 ≤ 8)) ∧
    (¬ (resp.insufficient_evidence = true
          ∧ ((AiScorer.clampCategoryScores resp.category_scores).map (·.2)).sum < 20
          ∧ wc > 150) →
      (((AiScorer.score_with_ai resp wc).category_scores.lookup "brand").getD 0 ≤ 12) ∧
      (((AiScorer.score_with_ai resp wc).category_scores.lookup "visual").getD 0 ≤ 10) ∧
      (((AiScorer.score_with_ai resp wc).category_scores.lookup "conversion").getD 0 ≤ 12) ∧
      (((AiScorer.score_with_ai resp wc).category_scores.lookup "trust").getD 0 ≤ 10) ∧
      (((AiScorer.score_with_ai resp wc).category_scores.lookup "a11y").getD 0 ≤ 6)) := by
  have hBf : ∀ x : Int, 0 ≤ max 0 (min 12 x) ∧ max 0 (min 12 x) ≤ 12 := by
    intro x; omega
  have hVf : ∀ x : Int, 0 ≤ max 0 (min 10 x) ∧ max 0 (min 10 x) ≤ 10 := by
    intro x; omega
  have hAf : ∀ x : Int, 0 ≤ max 0 (min 6 x) ∧ max 0 (min 6 x) ≤ 6 := by
    intro x; omega
  obtain ⟨hB0, hB1⟩ := hBf ((resp.category_scores.lookup "brand").getD 0)
  obtain ⟨hV0, hV1⟩ := hVf ((resp.category_scores.lookup "visual").getD 0)
  obtain ⟨hC0, hC1⟩ := hBf ((resp.category_scores.lookup "conversion").getD 0)
  obtain ⟨hT0, hT1⟩ := hVf ((resp.category_scores.lookup "trust").getD 0)
  obtain ⟨hA0, hA1⟩ := hAf ((resp.category_scores.lookup "a11y").getD 0)
  set B := max 0 (min 12 ((resp.category_scores.lookup "brand").getD 0)) with hBdef
  set V := max 0 (min 10 ((resp.category_scores.lookup "visual").getD 0)) with hVdef
  set Cv := max 0 (min 12 ((resp.category_scores.lookup "conversion").getD 0)) with hCdef
  set T := max 0 (min 10 ((resp.category_scores.lookup "trust").getD 0)) with hTdef
  set A := max 0 (min 6 ((resp.category_scores.lookup "a11y").getD 0)) with hAdef
  have hclamp : AiScorer.clampCategoryScores resp.category_scores
      = [("brand", B), ("visual", V), ("conversion", Cv), ("trust", T), ("a11y", A)] := by
    rw [hBdef, hVdef, hCdef, hTdef, hAdef]
    rfl
  have hsum : ((AiScorer.clampCategoryScores resp.category_scores).map (·.2)).sum
      = B + (V + (Cv + (T + (A + 0)))) := by
    rw [hclamp]
    rfl
  by_cases hupl : resp.insufficient_evidence = true
      ∧ ((AiScorer.clampCategoryScores resp.category_scores).map (·.2)).sum < 20
      ∧ wc > 150
  · have hlt : B + (V + (Cv + (T + (A + 0)))) < 20 := by rw [← hsum]; exact hupl.2.1
    have hout : (AiScorer.score_with_ai resp wc).category_scores
        = [("brand", B + (20 - (B + (V + (Cv + (T + (A + 0)))))) / 5),
           ("visual", V + (20 - (B + (V + (Cv + (T + (A + 0)))))) / 5),
           ("conversion", Cv + (20 - (B + (V + (Cv + (T + (A + 0)))))) / 5),
           ("trust", T + (20 - (B + (V + (Cv + (T + (A + 0)))))) / 5),
           ("a11y", A + (20 - (B + (V + (Cv + (T + (A + 0)))))) / 5)] := by
      simp only [AiScorer.score_with_ai]
      rw [hclamp]
      have hs2 : (List.map (fun x => x.2)
          [("brand", B), ("visual", V), ("conversion", Cv), ("trust", T), ("a11y", A)]).sum
          = B + (V + (Cv + (T + (A + 0)))) := rfl
      rw [hs2]
      rw [if_pos ⟨hupl.1, hlt, hupl.2.2⟩]
      rfl
    rw [hout]
    refine ⟨?_, ⟨?_, ?_, ?_, ?_, ?_⟩, fun hcon => absurd hupl hcon⟩
    · intro p hp
      simp only [List.mem_cons, List.not_mem_nil, or_false] at hp
      rcases hp with h | h | h | h | h <;> subst h <;> dsimp only <;> omega
    all_goals (simp [List.lookup]; omega)
  · have hout : (AiScorer.score_with_ai resp wc).category_scores
        = [("brand", B), ("visual", V), ("conversion", Cv), ("trust", T), ("a11y", A)] := by
      simp only [AiScorer.score_with_ai]
      rw [hclamp]
      have hs2 : (List.map (fun x => x.2)
          [("brand", B), ("visual", V), ("conversion", Cv), ("trust", T), ("a11y", A)]).sum
          = B + (V + (Cv + (T + (A + 0)))) := rfl
      rw [hs2]
      rw [if_neg (by rw [hsum] at hupl; exact hupl)]
    rw [hout]
    refine ⟨?_, ⟨?_, ?_, ?_, ?_, ?_⟩, fun _ => ⟨?_, ?_, ?_, ?_, ?_⟩⟩
    · intro p hp
      simp only [List.mem_cons, List.not_mem_nil, or_false] at hp
      rcases hp with h | h | h | h | h <;> subst h <;> dsimp only <;> omega
    all_goals (simp [List.lookup]; omega)

/-- Closed witness for the amended C8: the counterexample response hits the
weaker uplift bounds, and a well-evidenced response keeps the strict caps. -/
theorem ai_category_caps_witness :
    ((((AiScorer.score_with_ai ⟨[("a11y", 6)], [], AiScorer.PlainReport.empty, true, 1⟩
          151).category_scores.lookup "a11y").getD 0 ≤ 8)) ∧
    (¬ ((false = true)
          ∧ ((AiScorer.clampCategoryScores
                [("brand", 40)]).map (·.2)).sum < 20
          ∧ (200 : Int) > 150) →
      (((AiScorer.score_with_ai ⟨[("brand", 40)], [], AiScorer.PlainReport.empty, false, 1⟩
          200).category_scores.lookup "brand").getD 0 ≤ 12)) :=
  ⟨(ai_category_caps ⟨[("a11y", 6)], [], AiScorer.PlainReport.empty, true, 1⟩ 151).2.1.2.2.2.2,
   fun h => ((ai_category_caps ⟨[("brand", 40)], [], AiScorer.PlainReport.empty, false, 1⟩
      200).2.2 h).1⟩

/-! ## Score-cache claims -/

theorem find?_replaceFirst (h : String) (e2 : Scorer.ScoreCache)
    (he2 : (e2.url_hash == h) = true) :
    ∀ (db : List Scorer.ScoreCache) (e0 : Scorer.ScoreCache),
      db.find? (fun e => e.url_hash == h) = some e0 →
      (Scorer.replaceFirst db h e2).find? (fun e => e.url_hash == h) = some e2 := by
  intro db
  induction db with
  | nil => intro e0 h0; simp [List.find?] at h0
  | cons e es ih =>
    intro e0 h0
    by_cases hh : (e.url_hash == h) = true
    · simp [Scorer.replaceFirst, hh, List.find?, he2]
    · have hh' : (e.url_hash == h) = false := by simpa using hh
      simp only [Scorer.replaceFirst, hh', Bool.false_eq_true, if_false]
      simp only [List.find?, hh'] at h0 ⊢
      exact ih e0 h0

theorem find?_append_single (db : List Scorer.ScoreCache) (p : Scorer.ScoreCache → Bool)
    (e2 : Scorer.ScoreCache) (hnone : db.find? p = none) (he2 : p e2 = true) :
    (db ++ [e2]).find? p = some e2 := by
  rw [List.find?_append, hnone]
  simp [List.find?, he2]

/-- C6.  Cache round-trip with soft expiry: after `save_score_to_cache`
writes a result for URL `U` at time `t_w`, a `get_cached_score` read at `t_r`
returns exactly the written `final_score` and `confidence` as long as the
entry's `fetched_at` (= `t_w`) is within `max_age_hours` of `t_r`, and
returns `none` (absent) once `t_w` is older than the cutoff. -/
theorem cache_round_trip (db : List Scorer.ScoreCache) (t_w t_r : Int) (url : String)
    (sd : Scorer.ScoreData) (max_age : Int) :
    (¬ (t_w < t_r - max_age * 3600) →
      ∃ r, Scorer.get_cached_score (Scorer.save_score_to_cache db t_w url sd) t_r url max_age
            = some r
        ∧ r.final_score = sd.final_score.getD 0
        ∧ r.confidence = sd.confidence.getD (1/2)) ∧
    ((t_w < t_r - max_age * 3600) →
      Scorer.get_cached_score (Scorer.save_score_to_cache db t_w url sd) t_r url max_age
        = none) := by
  have hfind : ∃ ew : Scorer.ScoreCache,
      (Scorer.save_score_to_cache db t_w url sd).find?
          (fun e => e.url_hash == Scorer.url_to_hash (Scorer.normalize_url url)) = some ew
        ∧ ew.fetched_at = t_w
        ∧ ew.final_score = sd.final_score.getD 0
        ∧ ew.confidence = sd.confidence.getD (1/2)
        ∧ ew.heuristic_result = sd.heuristic
        ∧ ew.ai_result = sd.ai_review := by
    cases hdb : db.find?
        (fun e => e.url_hash == Scorer.url_to_hash (Scorer.normalize_url url)) with
    | some entry =>
      have hpe : (entry.url_hash == Scorer.url_to_hash (Scorer.normalize_url url)) = true := by
        simpa using List.find?_some hdb
      refine ⟨⟨entry.url_hash, entry.normalized_url, sd.heuristic, sd.ai_review,
        sd.final_score.getD 0, sd.confidence.getD (1/2), t_w⟩, ?_, rfl, rfl, rfl, rfl, rfl⟩
      simp only [Scorer.save_score_to_cache, hdb]
      exact find?_replaceFirst _ _ (by simpa using hpe) db entry hdb
    | none =>
      refine ⟨⟨Scorer.url_to_hash (Scorer.normalize_url url), Scorer.normalize_url url,
        sd.heuristic, sd.ai_review, sd.final_score.getD 0, sd.confidence.getD (1/2), t_w⟩,
        ?_, rfl, rfl, rfl, rfl, rfl⟩
      simp only [Scorer.save_score_to_cache, hdb]
      exact find?_append_single db _ _ hdb (by simp)
  obtain ⟨ew, hew, hfetch, hscore, hconf, hheur, hai⟩ := hfind
  constructor
  · intro hfresh
    simp only [Scorer.get_cached_score, hew]
    rw [if_neg (by rw [hfetch]; exact hfresh)]
    exact ⟨_, rfl, hscore, hconf⟩
  · intro hold
    simp only [Scorer.get_cached_score, hew]
    rw [if_pos (by rw [hfetch]; exact hold)]

/-- Closed witness for C6: write a score of 42 with confidence 7/10 at time 0
into an empty cache; a read 1000 s later (within 24 h) returns 42 and 7/10, a
read 100000 s later (past 24 h = 86400 s) returns absent. -/
theorem cache_round_trip_witness :
    (¬ ((0 : Int) < 1000 - 24 * 3600) ∧
      ∃ r, Scorer.get_cached_score
            (Scorer.save_score_to_cache [] 0 "example.com" ⟨none, none, some 42, some (7/10)⟩)
            1000 "example.com" 24 = some r
        ∧ r.final_score = (some (42 : Int)).getD 0
        ∧ r.confidence = (some ((7 : ℚ)/10)).getD (1/2)) ∧
    (((0 : Int) < 100000 - 24 * 3600) ∧
      Scorer.get_cached_score
            (Scorer.save_score_to_cache [] 0 "example.com" ⟨none, none, some 42, some (7/10)⟩)
            100000 "example.com" 24 = none) :=
  ⟨⟨by decide,
    (cache_round_trip [] 0 1000 "example.com" ⟨none, none, some 42, some (7/10)⟩ 24).1
      (by decide)⟩,
   ⟨by decide,
    (cache_round_trip [] 0 100000 "example.com" ⟨none, none, some 42, some (7/10)⟩ 24).2
      (by decide)⟩⟩

/-! ## Orchestrator claim -/

/-- C7.  Blocked / empty fetch short-circuit: on a cache miss, when the
multi-page fetch yields no combined HTML or a status in {403, 401, 429},
`score_website_hybrid` returns the degenerate `blocked` result —
`final_score = 0`, `has_errors = true`, `bot_blocked` true exactly when the
status is one of {403, 401, 429} — with the cache database untouched.  The
heuristic, technographics and AI stages enter only as universally quantified
function parameters and the returned value does not depend on them, which is
the shallow-embedding statement that none of them is invoked. -/
theorem blocked_fetch_short_circuits {T C : Type}
    (db : List Scorer.ScoreCache) (now : Int) (url : String) (use_cache : Bool)
    (fetch_multiple_pages : String → Scorer.FetchResult)
    (detect_js_framework : String → Scorer.Detection)
    (score_site_heuristics : String → String → Scorer.HeurBlob)
    (detect_technographics : String → String → T)
    (extract_site_content_for_ai : String → C)
    (ai_stage : C → List (String × Int) → String → Bool → T → AiScorer.AiReview)
    (hmiss : (if use_cache then Scorer.get_cached_score db now url 24 else none) = none)
    (hbad : (fetch_multiple_pages url).combined_html = ""
          ∨ Scorer.isBlockedStatus (fetch_multiple_pages url).status = true) :
    Scorer.score_website_hybrid db now url use_cache fetch_multiple_pages
        detect_js_framework score_site_heuristics detect_technographics
        extract_site_content_for_ai ai_stage
      = (Scorer.ScoreOutcome.blocked
          ⟨0, 3/10, 0, 0, [], [], true, (fetch_multiple_pages url).errors, true,
            Scorer.isBlockedStatus (fetch_multiple_pages url).status,
            ⟨(if Scorer.isBlockedStatus (fetch_multiple_pages url).status
                then ["Website has security measures in place"] else []),
              [], "Unable to access website for analysis", []⟩,
            false⟩, db) ∧
    (Scorer.isBlockedStatus (fetch_multiple_pages url).status = true
      ↔ ((fetch_multiple_pages url).status = some 403
        ∨ (fetch_multiple_pages url).status = some 401
        ∨ (fetch_multiple_pages url).status = some 429)) := by
  have hcond : ((fetch_multiple_pages url).combined_html == ""
      || Scorer.isBlockedStatus (fetch_multiple_pages url).status) = true := by
    rcases hbad with h | h
    · simp [h]
    · simp [h]
  constructor
  · simp only [Scorer.score_website_hybrid, hmiss]
    rw [if_pos hcond]
  · simp [Scorer.isBlockedStatus, or_assoc]

/-- Closed witness for C7: a fetch that returns status 403 with empty HTML,
constant stage functions, no cache. -/
theorem blocked_fetch_short_circuits_witness :
    ((if false then Scorer.get_cached_score [] 0 "x" 24 else none) = none
      ∧ (((fun _ => ⟨none, "", some 403, []⟩ : String → Scorer.FetchResult) "x").combined_html
            = ""
        ∨ Scorer.isBlockedStatus
            (((fun _ => ⟨none, "", some 403, []⟩ : String → Scorer.FetchResult) "x").status)
            = true)) ∧
    (Scorer.score_website_hybrid (T := Unit) (C := Unit) [] 0 "x" false
        (fun _ => ⟨none, "", some 403, []⟩)
        (fun _ => ⟨false, []⟩)
        (fun _ _ => Scorer.HeurBlob.empty)
        (fun _ _ => ())
        (fun _ => ())
        (fun _ _ _ _ _ => AiScorer.AiReview.empty)
      = (Scorer.ScoreOutcome.blocked
          ⟨0, 3/10, 0, 0, [], [], true,
            ((fun _ => ⟨none, "", some 403, []⟩ : String → Scorer.FetchResult) "x").errors, true,
            Scorer.isBlockedStatus
              (((fun _ => ⟨none, "", some 403, []⟩ : String → Scorer.FetchResult) "x").status),
            ⟨(if Scorer.isBlockedStatus
                  (((fun _ => ⟨none, "", some 403, []⟩ : String → Scorer.FetchResult) "x").status)
                then ["Website has security measures in place"] else []),
              [], "Unable to access website for analysis", []⟩,
            false⟩, []) ∧
      (Scorer.isBlockedStatus
          (((fun _ => ⟨none, "", some 403, []⟩ : String → Scorer.FetchResult) "x").status) = true
        ↔ (((fun _ => ⟨none, "", some 403, []⟩ : String → Scorer.FetchResult) "x").status = some 403
          ∨ ((fun _ => ⟨none, "", some 403, []⟩ : String → Scorer.FetchResult) "x").status = some 401
          ∨ ((fun _ => ⟨none, "", some 403, []⟩ : String → Scorer.FetchResult) "x").status
              = some 429))) :=
  ⟨⟨rfl, Or.inl rfl⟩,
   blocked_fetch_short_circuits [] 0 "x" false
     (fun _ => ⟨none, "", some 403, []⟩) (fun _ => ⟨false, []⟩)
     (fun _ _ => Scorer.HeurBlob.empty) (fun _ _ => ()) (fun _ => ())
     (fun _ _ _ _ _ => AiScorer.AiReview.empty) rfl (Or.inl rfl)⟩

/-! ## URL normalization: claim C9 -/

theorem char_toNat_ofNat (n : Nat) (h : n.isValidChar) : (Char.ofNat n).toNat = n := by
  simp only [Char.ofNat, dif_pos h]
  rfl

theorem char_eq_iff_toNat (c d : Char) : c = d ↔ c.toNat = d.toNat :=
  ⟨fun h => congrArg Char.toNat h,
   fun h => by rw [← Char.ofNat_toNat c, h, Char.ofNat_toNat]⟩

theorem toLower_toNat_upper (c : Char) (h : 65 ≤ c.toNat ∧ c.toNat ≤ 90) :
    (Char.toLower c).toNat = c.toNat + 32 := by
  have hv : (c.toNat + 32).isValidChar := Or.inl (by omega)
  simp only [Char.toLower, ge_iff_le]
  rw [if_pos ⟨h.1, h.2⟩, char_toNat_ofNat _ hv]

theorem toLower_eq_of_not_upper (c : Char) (h : ¬ (65 ≤ c.toNat ∧ c.toNat ≤ 90)) :
    Char.toLower c = c := by
  unfold Char.toLower
  show (if c.toNat ≥ 65 ∧ c.toNat ≤ 90 then Char.ofNat (c.toNat + 32) else c) = c
  rw [if_neg h]

theorem toLower_toLower (c : Char) : Char.toLower (Char.toLower c) = Char.toLower c := by
  by_cases h : 65 ≤ c.toNat ∧ c.toNat ≤ 90
  · have ht := toLower_toNat_upper c h
    apply toLower_eq_of_not_upper
    omega
  · rw [toLower_eq_of_not_upper c h]
    exact toLower_eq_of_not_upper c h

theorem isNetlocDelim_toLower (c : Char) (h : Scorer.isNetlocDelim c = false) :
    Scorer.isNetlocDelim (Char.toLower c) = false := by
  by_cases hu : 65 ≤ c.toNat ∧ c.toNat ≤ 90
  · have ht := toLower_toNat_upper c hu
    have h47 : ('/' : Char).toNat = 47 := rfl
    have h63 : ('?' : Char).toNat = 63 := rfl
    have h35 : ('#' : Char).toNat = 35 := rfl
    simp only [Scorer.isNetlocDelim, Bool.or_eq_false_iff, beq_eq_false_iff_ne, ne_eq,
      char_eq_iff_toNat, h47, h63, h35] at h ⊢
    refine ⟨⟨?_, ?_⟩, ?_⟩ <;> omega
  · rw [toLower_eq_of_not_upper c hu]
    exact h

theorem takeWhile_app_all (f : Char → Bool) (l1 l2 : List Char)
    (h : ∀ c ∈ l1, f c = true) :
    (l1 ++ l2).takeWhile f = l1 ++ l2.takeWhile f := by
  induction l1 with
  | nil => simp
  | cons a t ih =>
    have ha : f a = true := h a (List.mem_cons_self a t)
    simp only [List.cons_append, List.takeWhile_cons, ha, if_true]
    rw [ih (fun c hc => h c (List.mem_cons_of_mem a hc))]

theorem takeWhile_all (f : Char → Bool) (l : List Char) (h : ∀ c ∈ l, f c = true) :
    l.takeWhile f = l := by
  have := takeWhile_app_all f l [] h
  simpa using this

theorem drop_len_takeWhile (f : Char → Bool) (l : List Char) :
    l.drop (l.takeWhile f).length = l.dropWhile f := by
  nth_rewrite 2 [← List.takeWhile_append_dropWhile f l]
  rw [List.drop_left]

theorem dropWhile_idem (f : Char → Bool) (l : List Char) :
    (l.dropWhile f).dropWhile f = l.dropWhile f := by
  induction l with
  | nil => rfl
  | cons a t ih =>
    by_cases ha : f a = true
    · simp only [List.dropWhile_cons, ha, if_true]
      exact ih
    · have ha' : f a = false := by simpa using ha
      simp [List.dropWhile_cons, ha']

theorem splitParams_lead (p : List Char) : ∃ t, Scorer.splitParamsL p ++ t = p := by
  unfold Scorer.splitParamsL
  by_cases hsl : p.contains '/' = true
  · rw [if_pos hsl]
    by_cases hsc : ((p.reverse.takeWhile (fun c => !(c == '/'))).reverse).contains ';' = true
    · rw [if_pos hsc]
      refine ⟨((p.reverse.takeWhile (fun c => !(c == '/'))).reverse).dropWhile
          (fun c => !(c == ';')), ?_⟩
      rw [List.append_assoc, List.takeWhile_append_dropWhile]
      rw [← List.reverse_append, List.takeWhile_append_dropWhile, List.reverse_reverse]
    · rw [if_neg hsc]
      exact ⟨[], List.append_nil p⟩
  · rw [if_neg hsl]
    by_cases hsc : p.contains ';' = true
    · rw [if_pos hsc]
      exact ⟨p.dropWhile (fun c => !(c == ';')), List.takeWhile_append_dropWhile _ p⟩
    · rw [if_neg hsc]
      exact ⟨[], List.append_nil p⟩

theorem rstrip_lead (p : List Char) : ∃ t, Scorer.rstripSlashL p ++ t = p := by
  refine ⟨(p.reverse.takeWhile (fun c => c == '/')).reverse, ?_⟩
  unfold Scorer.rstripSlashL
  rw [← List.reverse_append, List.takeWhile_append_dropWhile, List.reverse_reverse]

theorem rstrip_idem (p : List Char) :
    Scorer.rstripSlashL (Scorer.rstripSlashL p) = Scorer.rstripSlashL p := by
  unfold Scorer.rstripSlashL
  rw [List.reverse_reverse, dropWhile_idem]

theorem schemeOf_cases (u : List Char) :
    Scorer.schemeOf u = "http".data ∨ Scorer.schemeOf u = "https".data := by
  unfold Scorer.schemeOf
  split
  · right; rfl
  · left; rfl

theorem netlocRaw_no_delim (u : List Char) :
    ∀ c ∈ Scorer.netlocRaw u, Scorer.isNetlocDelim c = false := by
  intro c hc
  unfold Scorer.netlocRaw at hc
  simpa using List.mem_takeWhile_imp hc

theorem netlocFinal_no_delim (u : List Char) :
    ∀ c ∈ Scorer.netlocFinal u, Scorer.isNetlocDelim c = false := by
  intro c hc
  have hsub : c ∈ Scorer.netlocLower u := by
    unfold Scorer.netlocFinal at hc
    split at hc
    · exact List.mem_of_mem_drop hc
    · exact hc
  unfold Scorer.netlocLower at hsub
  obtain ⟨d, hd, rfl⟩ := List.mem_map.mp hsub
  exact isNetlocDelim_toLower d (netlocRaw_no_delim u d hd)

theorem netlocLower_stable (u : List Char) :
    (Scorer.netlocLower u).map Char.toLower = Scorer.netlocLower u := by
  unfold Scorer.netlocLower
  rw [List.map_map]
  exact List.map_congr_left (fun a _ => toLower_toLower a)

theorem netlocFinal_lower_stable (u : List Char) :
    (Scorer.netlocFinal u).map Char.toLower = Scorer.netlocFinal u := by
  unfold Scorer.netlocFinal
  split
  · rw [List.map_drop, netlocLower_stable]
  · exact netlocLower_stable u

theorem dropWhile_head_false (f : Char → Bool) (l : List Char) :
    ∀ a t, l.dropWhile f = a :: t → f a = false := by
  induction l with
  | nil => intro a t h; simp [List.dropWhile] at h
  | cons b r ih =>
    intro a t h
    by_cases hb : f b = true
    · rw [List.dropWhile_cons, if_pos hb] at h
      exact ih a t h
    · rw [List.dropWhile_cons, if_neg hb] at h
      cases h
      simpa using hb

theorem pathRaw_shape (u : List Char) :
    Scorer.pathRaw u = [] ∨ ∃ t, Scorer.pathRaw u = '/' :: t := by
  have hra : Scorer.restAfterNetloc u
      = (Scorer.restOf u).dropWhile (fun c => !(Scorer.isNetlocDelim c)) := by
    unfold Scorer.restAfterNetloc Scorer.netlocRaw
    exact drop_len_takeWhile _ _
  unfold Scorer.pathRaw
  rw [hra]
  cases hd : (Scorer.restOf u).dropWhile (fun c => !(Scorer.isNetlocDelim c)) with
  | nil => left; rfl
  | cons a t =>
    have ha : (fun c => !(Scorer.isNetlocDelim c)) a = false := dropWhile_head_false _ _ a t hd
    have hdelim : Scorer.isNetlocDelim a = true := by simpa using ha
    have hor : a = '/' ∨ a = '?' ∨ a = '#' := by
      simpa [Scorer.isNetlocDelim, beq_iff_eq, or_assoc] using hdelim
    rcases hor with rfl | rfl | rfl
    · right
      exact ⟨t.takeWhile (fun c => !(c == '?' || c == '#')), rfl⟩
    · left; rfl
    · left; rfl

theorem pathRaw_no_query (u : List Char) :
    ∀ c ∈ Scorer.pathRaw u, (c == '?' || c == '#') = false := by
  intro c hc
  unfold Scorer.pathRaw at hc
  simpa using List.mem_takeWhile_imp hc

theorem pathParams_sub (u : List Char) :
    ∀ c ∈ Scorer.pathParams u, c ∈ Scorer.pathRaw u := by
  intro c hc
  obtain ⟨t2, ht2⟩ := splitParams_lead (Scorer.pathRaw u)
  have : c ∈ Scorer.splitParamsL (Scorer.pathRaw u) := hc
  rw [← ht2]
  exact List.mem_append_left t2 this

theorem pathFinal_shape (u : List Char) : ∃ t, Scorer.pathFinal u = '/' :: t := by
  unfold Scorer.pathFinal
  split
  · exact ⟨[], rfl⟩
  · next hne =>
    obtain ⟨t1, ht1⟩ := rstrip_lead (Scorer.pathParams u)
    obtain ⟨t2, ht2⟩ := splitParams_lead (Scorer.pathRaw u)
    rcases pathRaw_shape u with h0 | ⟨t, ht⟩
    · exfalso
      apply hne
      have hpp : Scorer.pathParams u = [] := by
        have h12 : Scorer.pathParams u ++ t2 = [] := by
          unfold Scorer.pathParams
          rw [ht2, h0]
        exact List.append_eq_nil.mp h12 |>.1
      rw [hpp]
      rfl
    · have hcat : Scorer.rstripSlashL (Scorer.pathParams u) ++ (t1 ++ t2) = '/' :: t := by
        rw [← List.append_assoc, ht1]
        have : Scorer.pathParams u ++ t2 = Scorer.pathRaw u := by
          unfold Scorer.pathParams
          rw [ht2]
        rw [this, ht]
      cases hr : Scorer.rstripSlashL (Scorer.pathParams u) with
      | nil => exact absurd hr hne
      | cons a r =>
        rw [hr, List.cons_append] at hcat
        obtain ⟨ha, -⟩ := List.cons.inj hcat
        exact ⟨r, by rw [ha]⟩

theorem pathFinal_no_query (u : List Char) :
    ∀ c ∈ Scorer.pathFinal u, (c == '?' || c == '#') = false := by
  intro c hc
  unfold Scorer.pathFinal at hc
  split at hc
  · simp only [List.mem_singleton] at hc
    subst hc
    rfl
  · obtain ⟨t1, ht1⟩ := rstrip_lead (Scorer.pathParams u)
    have h1 : c ∈ Scorer.pathParams u := by
      rw [← ht1]
      exact List.mem_append_left t1 hc
    exact pathRaw_no_query u c (pathParams_sub u c h1)

theorem pathFinal_rstrip_stable (u : List Char) :
    (if Scorer.rstripSlashL (Scorer.pathFinal u) = [] then ['/']
      else Scorer.rstripSlashL (Scorer.pathFinal u)) = Scorer.pathFinal u := by
  unfold Scorer.pathFinal
  split
  · decide
  · next hne =>
    rw [rstrip_idem]
    rw [if_neg hne]

theorem normalizeParts_canonical_aux (s n pt : List Char)
    (hn : ∀ c ∈ n, Scorer.isNetlocDelim c = false)
    (hq : ∀ c ∈ ('/' :: pt), (c == '?' || c == '#') = false)
    (hsch : Scorer.schemeOf (s ++ ':' :: '/' :: '/' :: (n ++ '/' :: pt)) = s)
    (hrest : Scorer.restOf (s ++ ':' :: '/' :: '/' :: (n ++ '/' :: pt)) = n ++ '/' :: pt) :
    Scorer.normalizeParts (s ++ ':' :: '/' :: '/' :: (n ++ '/' :: pt))
      = (s,
         (if "www.".data.isPrefixOf (n.map Char.toLower)
            then (n.map Char.toLower).drop 4 else n.map Char.toLower),
         (if Scorer.rstripSlashL (Scorer.splitParamsL ('/' :: pt)) = [] then ['/']
            else Scorer.rstripSlashL (Scorer.splitParamsL ('/' :: pt)))) := by
  have hfn : ∀ c ∈ n, (fun c => !(Scorer.isNetlocDelim c)) c = true := fun c hc => by
    simp [hn c hc]
  have hnr : Scorer.netlocRaw (s ++ ':' :: '/' :: '/' :: (n ++ '/' :: pt)) = n := by
    unfold Scorer.netlocRaw
    rw [hrest, takeWhile_app_all _ _ _ hfn]
    simp [List.takeWhile_cons, Scorer.isNetlocDelim]
  have hran : Scorer.restAfterNetloc (s ++ ':' :: '/' :: '/' :: (n ++ '/' :: pt)) = '/' :: pt := by
    unfold Scorer.restAfterNetloc
    rw [hrest, hnr, List.drop_left]
  have hpr : Scorer.pathRaw (s ++ ':' :: '/' :: '/' :: (n ++ '/' :: pt)) = '/' :: pt := by
    unfold Scorer.pathRaw
    rw [hran]
    exact takeWhile_all _ _ (fun c hc => by simp [hq c hc])
  unfold Scorer.normalizeParts Scorer.netlocFinal Scorer.netlocLower Scorer.pathFinal
    Scorer.pathParams
  rw [hsch, hnr, hpr]

theorem normalizeParts_canonical (s n p : List Char)
    (hs : s = "http".data ∨ s = "https".data)
    (hn : ∀ c ∈ n, Scorer.isNetlocDelim c = false)
    (hp : ∃ t, p = '/' :: t)
    (hq : ∀ c ∈ p, (c == '?' || c == '#') = false) :
    Scorer.normalizeParts (s ++ ':' :: '/' :: '/' :: (n ++ p))
      = (s,
         (if "www.".data.isPrefixOf (n.map Char.toLower)
            then (n.map Char.toLower).drop 4 else n.map Char.toLower),
         (if Scorer.rstripSlashL (Scorer.splitParamsL p) = [] then ['/']
            else Scorer.rstripSlashL (Scorer.splitParamsL p))) := by
  obtain ⟨pt, rfl⟩ := hp
  rcases hs with rfl | rfl
  · have hb1 : Scorer.schemeHttp.isPrefixOf
        ("http".data ++ ':' :: '/' :: '/' :: (n ++ '/' :: pt)) = true := by
      simp [Scorer.schemeHttp, List.isPrefixOf]
    have hf : Scorer.schemeHttps.isPrefixOf
        ("http".data ++ ':' :: '/' :: '/' :: (n ++ '/' :: pt)) = false := rfl
    have hens : Scorer.ensured ("http".data ++ ':' :: '/' :: '/' :: (n ++ '/' :: pt))
        = "http".data ++ ':' :: '/' :: '/' :: (n ++ '/' :: pt) := by
      unfold Scorer.ensured
      exact if_pos (by rw [hb1, Bool.true_or])
    refine normalizeParts_canonical_aux "http".data n pt hn hq ?_ ?_
    · unfold Scorer.schemeOf
      rw [hens]
      exact if_neg (by rw [hf]; simp)
    · unfold Scorer.restOf
      rw [hens, if_neg (by rw [hf]; simp)]
      rfl
  · have ht : Scorer.schemeHttps.isPrefixOf
        ("https".data ++ ':' :: '/' :: '/' :: (n ++ '/' :: pt)) = true := by
      simp [Scorer.schemeHttps, List.isPrefixOf]
    have hens : Scorer.ensured ("https".data ++ ':' :: '/' :: '/' :: (n ++ '/' :: pt))
        = "https".data ++ ':' :: '/' :: '/' :: (n ++ '/' :: pt) := by
      unfold Scorer.ensured
      exact if_pos (by rw [ht, Bool.or_true])
    refine normalizeParts_canonical_aux "https".data n pt hn hq ?_ ?_
    · unfold Scorer.schemeOf
      rw [hens]
      exact if_pos ht
    · unfold Scorer.restOf
      rw [hens, if_pos ht]
      rfl

theorem normalizeL_stable (u : List Char)
    (h1 : "www.".data.isPrefixOf (Scorer.netlocFinal u) = false)
    (h2 : Scorer.netlocFinal u ≠ [] ∨ ¬ (['/', '/'].isPrefixOf (Scorer.pathFinal u) = true))
    (h3 : Scorer.splitParamsL (Scorer.pathFinal u) = Scorer.pathFinal u) :
    Scorer.normalizeL (Scorer.normalizeL u) = Scorer.normalizeL u := by
  by_cases hu : u = []
  · subst hu; rfl
  · have hnl : Scorer.normalizeL u
        = Scorer.unparseL (Scorer.schemeOf u) (Scorer.netlocFinal u) (Scorer.pathFinal u) := by
      unfold Scorer.normalizeL
      rw [if_neg hu]
      rfl
    obtain ⟨pt, hp⟩ := pathFinal_shape u
    have hone : (['/'].isPrefixOf (Scorer.pathFinal u)) = true := by
      rw [hp]
      simp [List.isPrefixOf]
    have hw : Scorer.unparseL (Scorer.schemeOf u) (Scorer.netlocFinal u) (Scorer.pathFinal u)
        = Scorer.schemeOf u ++ ':' :: '/' :: '/'
            :: (Scorer.netlocFinal u ++ Scorer.pathFinal u) := by
      unfold Scorer.unparseL
      rw [if_pos h2]
      rw [if_neg (fun hand => hand.2 hone)]
    have hwne : Scorer.schemeOf u ++ ':' :: '/' :: '/'
        :: (Scorer.netlocFinal u ++ Scorer.pathFinal u) ≠ [] := by simp
    have hcanon := normalizeParts_canonical (Scorer.schemeOf u) (Scorer.netlocFinal u)
      (Scorer.pathFinal u) (schemeOf_cases u) (netlocFinal_no_delim u) ⟨pt, hp⟩
      (pathFinal_no_query u)
    have hnn : (if "www.".data.isPrefixOf ((Scorer.netlocFinal u).map Char.toLower)
          then ((Scorer.netlocFinal u).map Char.toLower).drop 4
          else (Scorer.netlocFinal u).map Char.toLower) = Scorer.netlocFinal u := by
      rw [netlocFinal_lower_stable u]
      rw [if_neg (by rw [h1]; simp)]
    have hpp : (if Scorer.rstripSlashL (Scorer.splitParamsL (Scorer.pathFinal u)) = []
          then ['/'] else Scorer.rstripSlashL (Scorer.splitParamsL (Scorer.pathFinal u)))
        = Scorer.pathFinal u := by
      rw [h3]
      exact pathFinal_rstrip_stable u
    rw [hnl, hw]
    unfold Scorer.normalizeL
    rw [if_neg hwne]
    dsimp only
    rw [hcanon]
    dsimp only
    rw [hnn, hpp]
    exact hw

/-- Counterexample to C9 as stated: `normalize_url` is not idempotent.  A
host with a doubled `www.` loses one `www.` per pass
(`www.www.example.com` → `https://www.example.com/` → `https://example.com/`);
a degenerate empty netloc with a `//`-path collapses
(`https:////a` → `https://a` → `https://a/`); and stripping trailing slashes
can expose a `;params` suffix in the last path segment that the next parse
splits off (`https://x/a;b//` → `https://x/a;b` → `https://x/a`). -/
theorem normalize_url_not_idempotent :
    Scorer.normalize_url (Scorer.normalize_url "www.www.example.com")
        ≠ Scorer.normalize_url "www.www.example.com" ∧
    Scorer.normalize_url (Scorer.normalize_url "https:////a")
        ≠ Scorer.normalize_url "https:////a" ∧
    Scorer.normalize_url (Scorer.normalize_url "https://x/a;b//")
        ≠ Scorer.normalize_url "https://x/a;b//" := by
  refine ⟨by decide, by decide, by decide⟩

/-- C9 (amended).  `normalize_url` is idempotent for every URL except the
three corner families the counterexample exhibits: whenever the first
normalization's host does not still begin with `"www."`, the result is not
the degenerate empty-host-with-`//`-path form, and the normalized path is
unchanged by params-splitting (no `';'` in its final segment), then
`normalize_url (normalize_url u) = normalize_url u`; and
`url_to_hash (normalize_url u)` is a pure function, so its value is stable
across calls on the same input. -/
theorem normalize_url_idempotent_hash_stable (u : String)
    (h1 : "www.".data.isPrefixOf (Scorer.netlocFinal u.data) = false)
    (h2 : Scorer.netlocFinal u.data ≠ []
        ∨ ¬ (['/', '/'].isPrefixOf (Scorer.pathFinal u.data) = true))
    (h3 : Scorer.splitParamsL (Scorer.pathFinal u.data) = Scorer.pathFinal u.data) :
    Scorer.normalize_url (Scorer.normalize_url u) = Scorer.normalize_url u ∧
    Scorer.url_to_hash (Scorer.normalize_url u) = Scorer.url_to_hash (Scorer.normalize_url u) := by
  refine ⟨?_, rfl⟩
  unfold Scorer.normalize_url
  rw [show (String.mk (Scorer.normalizeL u.data)).data = Scorer.normalizeL u.data from rfl]
  rw [normalizeL_stable u.data h1 h2 h3]

/-- Closed witness for the amended C9 at `"Example.com/About/"`: the
normalized host `example.com` has no leading `www.`, is nonempty, and the
normalized path `/About` has no params — so a second normalization is the
identity. -/
theorem normalize_url_idempotent_witness :
    ("www.".data.isPrefixOf (Scorer.netlocFinal ("Example.com/About/").data) = false
      ∧ Scorer.netlocFinal ("Example.com/About/").data ≠ []
      ∧ Scorer.splitParamsL (Scorer.pathFinal ("Example.com/About/").data)
          = Scorer.pathFinal ("Example.com/About/").data) ∧
    (Scorer.normalize_url (Scorer.normalize_url "Example.com/About/")
        = Scorer.normalize_url "Example.com/About/" ∧
      Scorer.url_to_hash (Scorer.normalize_url "Example.com/About/")
        = Scorer.url_to_hash (Scorer.normalize_url "Example.com/About/")) :=
  ⟨⟨by decide, by decide, by decide⟩,
   normalize_url_idempotent_hash_stable "Example.com/About/" (by decide)
     (Or.inl (by decide)) (by decide)⟩
